import Mathlib

/-!
Verification of the pottery-studio survey persistence and deduplication layer.

The definitions below are shallow embeddings of the Python source:

* `load_responses` embeds `results.py` (`load_responses`): the load-time
  reconciler that pads/trims ragged rows, drops rows with an empty
  `response_id`, sorts by the parsed `submitted_at` timestamp (pandas
  `sort_values`, default `na_position` places unparseable timestamps last)
  and keeps the last row of each duplicate group
  (`drop_duplicates(keep="last")`).
* `parseTimestamp` models `pd.to_datetime(s, errors="coerce")` on the
  ISO-8601 strings produced by `datetime.now().isoformat()`
  (`YYYY-MM-DDTHH:MM:SS` with an optional 6-digit fractional part);
  `none` models `NaT`.

Sheet data is modelled as it arrives from the Sheets API: a list of rows,
each row a list of cell strings, the first row being the header.
-/

namespace Survey

set_option maxRecDepth 16384

/-- Numeric value of a decimal digit character. -/
def digitVal (c : Char) : Nat := c.toNat - 48

/-- Value of a list of decimal digit characters, most significant first. -/
def digitsVal (cs : List Char) : Nat := cs.foldl (fun a c => a * 10 + digitVal c) 0

/-- Model of `pd.to_datetime(s, errors="coerce")` restricted to the ISO-8601
strings `datetime.now().isoformat()` writes: `YYYY-MM-DDTHH:MM:SS` optionally
followed by `.ffffff`.  The result is a single natural number that orders
exactly as the timestamps do (digits of the date-time, scaled to
microseconds); `none` models `NaT` (an unparseable timestamp). -/
def parseTimestamp (s : String) : Option Nat :=
  match s.data with
  | y1 :: y2 :: y3 :: y4 :: '-' :: mo1 :: mo2 :: '-' :: d1 :: d2 :: 'T' ::
      h1 :: h2 :: ':' :: mi1 :: mi2 :: ':' :: se1 :: se2 :: rest =>
    let core := [y1, y2, y3, y4, mo1, mo2, d1, d2, h1, h2, mi1, mi2, se1, se2]
    if core.all Char.isDigit then
      match rest with
      | [] => some (digitsVal core * 1000000)
      | '.' :: fs =>
        if fs.length == 6 && fs.all Char.isDigit then
          some (digitsVal core * 1000000 + digitsVal fs)
        else none
      | _ => none
    else none
  | _ => none

/-- Cell of a row at a column index; absent cells read as the empty string
(matching rows that were padded to the header width). -/
def cellAt (col : Nat) (r : List String) : String := r.getD col ""

/-- Row-width normalization from `load_responses`: pad short rows with empty
strings, trim long rows to the header width. -/
def normWidth (width : Nat) (row : List String) : List String :=
  if row.length < width then row ++ List.replicate (width - row.length) ""
  else row.take width

/-- Sort key used by the reconciler: the parsed `submitted_at` of a row, with
`NaT` (unparseable) as `⊤` — pandas `sort_values` places `NaT` last
(`na_position="last"` is the default).  When the sheet has no `submitted_at`
column the code assigns one common timestamp (`now`) to every row, so all
keys are equal; `0` models that constant. -/
def tsKey (header : List String) (r : List String) : WithTop Nat :=
  match header.findIdx? (· == "submitted_at") with
  | some tsCol =>
    match parseTimestamp (cellAt tsCol r) with
    | some n => (n : WithTop Nat)
    | none => ⊤
  | none => 0

/-- The sort relation of the reconciler: ascending parsed timestamp. -/
abbrev tsRel (header : List String) : List String → List String → Prop :=
  fun a b => tsKey header a ≤ tsKey header b

instance (header : List String) : IsTotal (List String) (tsRel header) :=
  ⟨fun a b => le_total (tsKey header a) (tsKey header b)⟩

instance (header : List String) : IsTrans (List String) (tsRel header) :=
  ⟨fun _ _ _ => le_trans⟩

/-- Model of `drop_duplicates(subset=["response_id"], keep="last")`: keep a
row only if no later row carries the same `response_id` cell. -/
def dedupLast (idCol : Nat) : List (List String) → List (List String)
  | [] => []
  | r :: rs =>
    if rs.any (fun r2 => cellAt idCol r2 == cellAt idCol r) then dedupLast idCol rs
    else r :: dedupLast idCol rs

/-- Embedding of `load_responses` (results.py).  Input: the raw sheet values
(header row first).  Fewer than two rows yield the empty dataset; a header
without `response_id` yields the empty dataset (the code reports an error and
returns an empty frame).  Otherwise rows are width-normalized, rows with an
empty `response_id` are dropped, rows are sorted by parsed timestamp
(stable, unparseable last) and duplicates collapse keeping the last row in
sorted order.  The cells returned by the Sheets API are strings, so the
`_jsonify_if_collection` normalization in the source is the identity and is
not represented. -/
def load_responses (values : List (List String)) : List (List String) :=
  if values.length < 2 then [] else
  match values with
  | [] => []
  | header :: rawRows =>
    let rows := rawRows.map (normWidth header.length)
    match header.findIdx? (· == "response_id") with
    | none => []
    | some idCol =>
      let kept := rows.filter (fun r => cellAt idCol r ≠ "")
      dedupLast idCol (List.insertionSort (tsRel header) kept)

/-! ### JSON value model

`Value` models the Python values a survey record may hold: `None`, booleans,
numbers (modelled as integers — floating point lies outside this embedding),
strings, lists and dicts with string keys.  `dumpsChars` models `json.dumps`
with its default arguments (`ensure_ascii=True`, separators `", "` and
`": "`, insertion order preserved); `loads` models `json.loads` on the same
fragment (integer numerals; lone surrogate escapes, which Lean characters
cannot carry, are rejected).  These model the `json` module calls in
`save_response` (app.py line 341) and `load_response_by_id` (line 463). -/

inductive Value where
  | null
  | bool (b : Bool)
  | num (n : Int)
  | str (s : String)
  | arr (vs : List Value)
  | obj (kvs : List (String × Value))

/-- The opening brace character, kept out of string literals. -/
def braceOpen : Char := Char.ofNat 123

/-- The closing brace character, kept out of string literals. -/
def braceClose : Char := Char.ofNat 125

/-- Lowercase hexadecimal digit, as `json.dumps` emits in escapes. -/
def hexDigitChar (n : Nat) : Char :=
  if n < 10 then Char.ofNat (48 + n) else Char.ofNat (87 + n)

/-- Four lowercase hex digits of a value below `0x10000`. -/
def hex4 (n : Nat) : List Char :=
  [hexDigitChar (n / 4096 % 16), hexDigitChar (n / 256 % 16),
   hexDigitChar (n / 16 % 16), hexDigitChar (n % 16)]

/-- Model of the `json.dumps` string escaper with `ensure_ascii=True`: the
two-character escapes for quote, backslash and the usual control characters,
`\u00xx` for the remaining control characters, the character itself for
printable ASCII, and `\uxxxx` (a surrogate pair above `0xFFFF`) for
everything else. -/
def escapeChar (c : Char) : List Char :=
  if c = '"' then ['\\', '"']
  else if c = '\\' then ['\\', '\\']
  else if c = '\n' then ['\\', 'n']
  else if c = '\r' then ['\\', 'r']
  else if c = '\t' then ['\\', 't']
  else if c.toNat = 8 then ['\\', 'b']
  else if c.toNat = 12 then ['\\', 'f']
  else if c.toNat < 32 ∨ 126 < c.toNat then
    if c.toNat < 65536 then '\\' :: 'u' :: hex4 c.toNat
    else
      ('\\' :: 'u' :: hex4 (55296 + (c.toNat - 65536) / 1024)) ++
        ('\\' :: 'u' :: hex4 (56320 + (c.toNat - 65536) % 1024))
  else [c]

/-- JSON text of a string: quote, escaped characters, quote. -/
def encodeStr (s : String) : List Char :=
  '"' :: (s.data.map escapeChar).flatten ++ ['"']

/-- Fuelled worker for `natDigits`; the fuel only bounds recursion depth. -/
def natDigitsAux : Nat → Nat → List Char
  | 0, _ => []
  | fuel + 1, n =>
    if n < 10 then [Char.ofNat (48 + n)]
    else natDigitsAux fuel (n / 10) ++ [Char.ofNat (48 + n % 10)]

/-- Decimal digit characters of a natural number, most significant first. -/
def natDigits (n : Nat) : List Char := natDigitsAux (n + 1) n

/-- Decimal representation of an integer, as Python prints it. -/
def intChars (n : Int) : List Char :=
  if n < 0 then '-' :: natDigits n.natAbs else natDigits n.natAbs

mutual

/-- Model of `json.dumps` (default arguments) producing a character list. -/
def dumpsChars : Value → List Char
  | .bool true => ['t', 'r', 'u', 'e']
  | .null => ['n', 'u', 'l', 'l']
  | .bool false => ['f', 'a', 'l', 's', 'e']
  | .num n => intChars n
  | .str s => encodeStr s
  | .arr vs => '[' :: dumpsArr vs
  | .obj kvs => braceOpen :: dumpsObj kvs

/-- Array elements joined by `", "`, closed by `]`. -/
def dumpsArr : List Value → List Char
  | [] => [']']
  | [v] => dumpsChars v ++ [']']
  | v :: vs => dumpsChars v ++ ',' :: ' ' :: dumpsArr vs

/-- Object members `"key": value` joined by `", "`, closed by the brace. -/
def dumpsObj : List (String × Value) → List Char
  | [] => [braceClose]
  | [(k, v)] => encodeStr k ++ ':' :: ' ' :: dumpsChars v ++ [braceClose]
  | (k, v) :: kvs => encodeStr k ++ ':' :: ' ' :: dumpsChars v ++ ',' :: ' ' :: dumpsObj kvs

end

/-- Model of `json.dumps` as a string-valued function. -/
def dumps (v : Value) : String := String.mk (dumpsChars v)

/-- JSON whitespace, as accepted between tokens by `json.loads`. -/
def jsonWs (c : Char) : Bool := c = ' ' || c = '\t' || c = '\n' || c = '\r'

/-- Drop leading JSON whitespace. -/
def skipWs : List Char → List Char
  | [] => []
  | c :: cs => if jsonWs c then skipWs cs else c :: cs

/-- Value of one hexadecimal digit, either case. -/
def hexVal? (c : Char) : Option Nat :=
  if '0' ≤ c ∧ c ≤ '9' then some (c.toNat - 48)
  else if 'a' ≤ c ∧ c ≤ 'f' then some (c.toNat - 87)
  else if 'A' ≤ c ∧ c ≤ 'F' then some (c.toNat - 55)
  else none

/-- Four hex digits, as in a `\uXXXX` escape. -/
def parseHex4 : List Char → Option (Nat × List Char)
  | c1 :: c2 :: c3 :: c4 :: rest =>
    match hexVal? c1, hexVal? c2, hexVal? c3, hexVal? c4 with
    | some a, some b, some c, some d => some (a * 4096 + b * 256 + c * 16 + d, rest)
    | _, _, _, _ => none
  | _ => none

/-- Decode one string escape (the character after the backslash onward),
combining surrogate pairs as the Python decoder does.  A lone surrogate —
which Python would keep but a Lean character cannot carry — is rejected. -/
def decodeEscape : List Char → Option (Char × List Char)
  | [] => none
  | e :: cs =>
    if e = '"' then some ('"', cs)
    else if e = '\\' then some ('\\', cs)
    else if e = '/' then some ('/', cs)
    else if e = 'b' then some (Char.ofNat 8, cs)
    else if e = 'f' then some (Char.ofNat 12, cs)
    else if e = 'n' then some ('\n', cs)
    else if e = 'r' then some ('\r', cs)
    else if e = 't' then some ('\t', cs)
    else if e = 'u' then
      match parseHex4 cs with
      | none => none
      | some (n, cs2) =>
        if 55296 ≤ n ∧ n ≤ 56319 then
          match cs2 with
          | '\\' :: 'u' :: cs3 =>
            match parseHex4 cs3 with
            | some (m, cs4) =>
              if 56320 ≤ m ∧ m ≤ 57343 then
                some (Char.ofNat (65536 + (n - 55296) * 1024 + (m - 56320)), cs4)
              else none
            | none => none
          | _ => none
        else if 56320 ≤ n ∧ n ≤ 57343 then none
        else some (Char.ofNat n, cs2)
    else none

/-- Body of a JSON string after the opening quote: characters up to the
closing quote, escapes decoded, unescaped control characters rejected
(`strict=True`, the `json.loads` default). -/
def parseStrChars : Nat → List Char → Option (List Char × List Char)
  | 0, _ => none
  | _ + 1, [] => none
  | fuel + 1, c :: cs =>
    if c = '"' then some ([], cs)
    else if c = '\\' then
      match decodeEscape cs with
      | none => none
      | some (d, cs2) =>
        match parseStrChars fuel cs2 with
        | none => none
        | some (out, rest) => some (d :: out, rest)
    else if c.toNat < 32 then none
    else
      match parseStrChars fuel cs with
      | none => none
      | some (out, rest) => some (c :: out, rest)

/-- An integer numeral may not continue as a float: floating point lies
outside this embedding, so a fractional or exponent continuation fails. -/
def numTailOk : List Char → Bool
  | [] => true
  | c :: _ => !(c = '.' || c = 'e' || c = 'E')

/-- A natural numeral per the JSON grammar: `0`, or a nonzero digit followed
by digits. -/
def parseNatToken : List Char → Option (Nat × List Char)
  | [] => none
  | c :: rest =>
    if c = '0' then
      match rest with
      | d :: _ => if d.isDigit || d = '.' || d = 'e' || d = 'E' then none else some (0, rest)
      | [] => some (0, rest)
    else if c.isDigit then
      if numTailOk (rest.dropWhile Char.isDigit) then
        some (digitsVal (c :: rest.takeWhile Char.isDigit), rest.dropWhile Char.isDigit)
      else none
    else none

/-- An integer numeral with optional leading minus. -/
def parseIntToken : List Char → Option (Int × List Char)
  | [] => none
  | c :: rest =>
    if c = '-' then
      match parseNatToken rest with
      | some (n, rest2) => some (-(n : Int), rest2)
      | none => none
    else
      match parseNatToken (c :: rest) with
      | some (n, rest2) => some ((n : Int), rest2)
      | none => none

/-- Text that may legally follow one complete JSON value: nothing, or a
separator or closer (the only continuations `dumpsChars` itself produces). -/
def stopsOk : List Char → Prop
  | [] => True
  | c :: _ => c = ',' ∨ c = ']' ∨ c = braceClose

/-- Python `dict` insertion: an existing key keeps its position and takes the
new value, a new key is appended. -/
def dictInsert (d : List (String × Value)) (k : String) (v : Value) :
    List (String × Value) :=
  if (d.lookup k).isSome then d.map (fun kv => if kv.1 == k then (kv.1, v) else kv)
  else d ++ [(k, v)]

/-- Model of `dict(pairs)`, as the Python decoder builds objects. -/
def pairsToDict (ps : List (String × Value)) : List (String × Value) :=
  ps.foldl (fun d kv => dictInsert d kv.1 kv.2) []

mutual

/-- Model of the `json.loads` value scanner (fuelled).  Skips leading
whitespace, then dispatches on the first character exactly as the Python
scanner does. -/
def parseValue : Nat → List Char → Option (Value × List Char)
  | 0, _ => none
  | fuel + 1, cs =>
    match skipWs cs with
    | [] => none
    | c :: rest =>
      if c = '"' then
        match parseStrChars (rest.length + 1) rest with
        | some (out, r) => some (.str (String.mk out), r)
        | none => none
      else if c = braceOpen then
        match skipWs rest with
        | c2 :: r2 =>
          if c2 = braceClose then some (.obj [], r2)
          else
            match parseMembers fuel (c2 :: r2) with
            | some (ms, r3) => some (.obj (pairsToDict ms), r3)
            | none => none
        | [] => none
      else if c = '[' then
        match skipWs rest with
        | c2 :: r2 =>
          if c2 = ']' then some (.arr [], r2)
          else
            match parseElems fuel (c2 :: r2) with
            | some (vs, r3) => some (.arr vs, r3)
            | none => none
        | [] => none
      else if c = 't' then
        match rest with
        | 'r' :: 'u' :: 'e' :: r => some (.bool true, r)
        | _ => none
      else if c = 'f' then
        match rest with
        | 'a' :: 'l' :: 's' :: 'e' :: r => some (.bool false, r)
        | _ => none
      else if c = 'n' then
        match rest with
        | 'u' :: 'l' :: 'l' :: r => some (.null, r)
        | _ => none
      else if c = '-' ∨ c.isDigit then
        match parseIntToken (c :: rest) with
        | some (n, r) => some (.num n, r)
        | none => none
      else none

/-- Array elements: value, then `,` and more elements or the closing `]`. -/
def parseElems : Nat → List Char → Option (List Value × List Char)
  | 0, _ => none
  | fuel + 1, cs =>
    match parseValue fuel cs with
    | none => none
    | some (v, r) =>
      match skipWs r with
      | ',' :: r2 =>
        match parseElems fuel (skipWs r2) with
        | some (vs, r3) => some (v :: vs, r3)
        | none => none
      | ']' :: r2 => some ([v], r2)
      | _ => none

/-- Object members: quoted key, `:`, value, then `,` and more members or the
closing brace. -/
def parseMembers : Nat → List Char → Option (List (String × Value) × List Char)
  | 0, _ => none
  | fuel + 1, cs =>
    match cs with
    | '"' :: cs1 =>
      match parseStrChars (cs1.length + 1) cs1 with
      | none => none
      | some (kout, r1) =>
        match skipWs r1 with
        | ':' :: r2 =>
          match parseValue fuel r2 with
          | none => none
          | some (v, r3) =>
            match skipWs r3 with
            | ',' :: r4 =>
              match parseMembers fuel (skipWs r4) with
              | some (ms, r5) => some ((String.mk kout, v) :: ms, r5)
              | none => none
            | c :: r4 =>
              if c = braceClose then some ([(String.mk kout, v)], r4)
              else none
            | [] => none
        | _ => none
    | _ => none

end

/-- Model of `json.loads`: scan one value, then require only whitespace to
remain (Python raises `Extra data` otherwise). -/
def loads (s : String) : Option Value :=
  match parseValue (s.data.length + 1) s.data with
  | some (v, rest) => if skipWs rest = [] then some v else none
  | none => none

/-- No duplicate string in the list (Python dict keys are unique). -/
def hasDupKeys : List String → Bool
  | [] => false
  | k :: ks => ks.contains k || hasDupKeys ks

mutual

/-- Every object inside the value has pairwise-distinct keys — automatically
true of values arising from Python dicts. -/
def nodupDeep : Value → Bool
  | .arr vs => ndElems vs
  | .obj kvs => !hasDupKeys (kvs.map Prod.fst) && ndMembers kvs
  | _ => true

/-- All elements of a list satisfy `nodupDeep`. -/
def ndElems : List Value → Bool
  | [] => true
  | v :: vs => nodupDeep v && ndElems vs

/-- All member values satisfy `nodupDeep`. -/
def ndMembers : List (String × Value) → Bool
  | [] => true
  | (_, v) :: kvs => nodupDeep v && ndMembers kvs

end

/-! ### Schema registry, record normalizer and persistence orchestrator -/

/-- The Schema Registry: `get_all_columns` from app.py, verbatim and in
source order. -/
def get_all_columns : List String := [
    "response_id", "schema_version", "submitted_at", "country",
    "currency", "uses_metric", "studio_name", "location_state",
    "location_other", "area_type", "metro_population", "space_sqft",
    "space_sqm", "years_operating_years", "years_operating_months", "years_operating_total_months",
    "studio_type", "studio_type_other", "current_members", "time_to_members_months",
    "peak_occupancy", "avg_occupancy", "total_wheels", "wheel_inventory",
    "wheel_preference", "classes_members_overlap", "reserved_wheels_for_members_pct", "reserved_wheels_for_members_fraction",
    "reserved_wheels_for_members_count", "handbuilding_stations", "glazing_stations", "designated_studios",
    "designated_occupancy_rate", "designated_details", "designated_membership_cost", "designated_shelves",
    "handbuilding_station_sqft", "glazing_station_sqft", "num_kilns", "kilns",
    "additional_equipment", "access_model", "hours_per_day", "days_per_week",
    "total_accessible_hours", "staffed_hours", "unstaffed_hours", "has_staff",
    "studio_manager_hours", "front_desk_hours", "instructors_hours", "tech_support_hours",
    "cleaning_hours", "other_staff_hours", "other_staff_description", "staff_roles",
    "compensation_type", "avg_hourly_rate", "total_staff_cost", "membership_software",
    "scheduling_system", "payment_processor", "security_system", "member_communication",
    "classes_per_month", "class_sessions_per_month", "instructor_flat_rate", "instructor_revenue_percentage",
    "instructor_hourly_rate", "equipment_maintenance", "building_maintenance", "tier_structure",
    "tier1_price", "tier2_price", "tier3_price", "tier4_price",
    "tier1_name", "tier1_description", "tier2_name", "tier2_description",
    "tier3_name", "tier3_description", "tier4_name", "tier4_description",
    "all_tiers_text", "firing_model", "firing_tier1_lbs", "firing_tier1_rate",
    "firing_tier2_lbs", "firing_tier2_rate", "firing_tier3_rate", "bisque_rate_per_lb",
    "firing_rate", "firing_rate_cuft", "bisque_rate_per_shelf", "bisque_rate_per_cuft",
    "firing_small", "firing_medium", "firing_large", "firing_explain",
    "clay_price", "clay_types", "offers_classes", "class_price",
    "class_weeks", "class_enrollment", "class_format", "offers_workshops",
    "workshop_price", "workshop_attendance", "offers_events", "event_types",
    "event_price", "event_attendance", "events_per_month", "event_pricing_model",
    "flat_event_rate", "event_piece_price", "event_studio_fee", "member_pcts",
    "hobbyist_pct", "regular_pct", "production_pct", "seasonal_pct",
    "demographics_usage_accuracy_ok", "monthly_gain", "monthly_churn", "new_members_per_month",
    "top_churn_reasons", "retention_churn_feedback", "shelf_space_per_member", "storage_bins_per_member",
    "avg_pieces_fired_per_member", "clay_consumption_per_member", "included_amenities", "community_events",
    "monthly_marketing_budget", "cost_per_acquisition", "effective_marketing_channels", "new_member_sources",
    "has_trial_offer", "trial_offer_type", "trial_conversion_rate", "rent",
    "utilities_included", "electricity", "water", "insurance",
    "glaze_budget", "had_buildout", "buildout_work_types", "buildout_cost_total",
    "buildout_cost_breakdown", "buildout_timeline", "unexpected_costs", "zoning_types",
    "zoning_other", "rent_per_sqft", "lease_term_years", "revenue_pcts",
    "rev_membership", "rev_clay", "rev_firing", "rev_classes",
    "rev_events", "rev_other", "monthly_revenue_range", "profitability_status",
    "monthly_profit_range", "cash_runway_months", "startup_capital_range", "time_to_profitability",
    "funding_sources", "funding_sources_other", "owner_hours_per_week", "capacity_utilization",
    "has_waitlist", "waitlist_length", "waitlist_avg_wait_weeks", "waitlist_conversion",
    "peak_crowding", "competing_studios", "pricing_vs_competitors", "market_population",
    "kiln_utilization", "competitive_advantages", "plans_expand_space", "plans_add_equipment",
    "plans_raise_prices", "target_member_count", "studio_status", "struggle_areas",
    "struggle_other", "closure_year", "months_operated", "closure_reasons",
    "lessons_learned", "macro_impact", "impact_details", "liability_coverage",
    "class_fill_rate", "instructor_compensation_model", "survey_feedback", "suggested_questions",
    "topics_interest", "followup", "followup_email", "_sheet_row"
]

/-- A Python dict of survey fields, as an insertion-ordered association
list.  Lookups model `dict` key lookup; the record passed to `save_response`
is a dict, so callers establish key uniqueness where a proof needs it. -/
abbrev Dict := List (String × Value)

/-- One field of the flattening comprehension in `save_response` (line 341):
`json.dumps(v) if isinstance(v, (list, dict)) else v`. -/
def flattenVal : Value → Value
  | .arr vs => .str (dumps (.arr vs))
  | .obj kvs => .str (dumps (.obj kvs))
  | v => v

/-- Whether a value is a Python `list` or `dict`. -/
def isCollection : Value → Bool
  | .arr _ => true
  | .obj _ => true
  | _ => false

/-- The flattening comprehension `flat = ...` of `save_response`. -/
def flatten (d : Dict) : Dict := d.map (fun kv => (kv.1, flattenVal kv.2))

/-- The row construction `[flat.get(c, "") for c in columns]` used by the
update, append and local-fallback writes: registry columns in registry
order, absent fields as the empty string. -/
def buildRow (flat : Dict) (columns : List String) : List Value :=
  columns.map (fun c => (flat.lookup c).getD (.str ""))

/-- Lines 331-332 of `save_response`: assign a fresh `response_id` only when
the record lacks one (`freshId` stands for `str(uuid.uuid4())`). -/
def withRid (freshId : String) (data : Dict) : Dict :=
  if (data.lookup "response_id").isSome then data
  else data ++ [("response_id", .str freshId)]

/-- Lines 335-339 of `save_response`: the dict literal
`\x7b"schema_version": "v1.1", "submitted_at": now, **data\x7d`.  Since
`**data` comes last, a key already present in `data` keeps the value from
`data`; the two metadata entries act only as defaults.  This embedding keeps
exactly that lookup behaviour (default entries are materialised only when
`data` lacks the key; key iteration order is unused downstream). -/
def withMeta (now : String) (data : Dict) : Dict :=
  (if (data.lookup "schema_version").isSome then []
    else [("schema_version", Value.str "v1.1")]) ++
  (if (data.lookup "submitted_at").isSome then []
    else [("submitted_at", Value.str now)]) ++ data

/-- Python dict item assignment `d[k] = v`: an existing key (first binding)
takes the new value in place, a new key is appended. -/
def setKey (d : Dict) (k : String) (v : Value) : Dict :=
  if (d.lookup k).isSome then d.map (fun kv => if kv.1 == k then (kv.1, v) else kv)
  else d ++ [(k, v)]

/-- String rendering of a cell as it reaches durable storage: Python strings
pass through, numbers and booleans render as Python prints them, `None`
becomes the empty cell.  Lists and dicts cannot reach a cell — `flatten` has
already serialized them — so that branch is unreachable in every use. -/
def csvCell : Value → String
  | .str s => s
  | .num n => String.mk (intChars n)
  | .bool b => if b then "True" else "False"
  | .null => ""
  | v => dumps v

/-- A stored row as cell strings: `buildRow` rendered cell by cell. -/
def rowStrings (flat : Dict) (columns : List String) : List String :=
  (buildRow flat columns).map csvCell

/-- The full record written by one `save_response` call: metadata defaults
applied, fields flattened, restricted to the registry columns. -/
def saveRow (freshId now : String) (data : Dict) : List String :=
  rowStrings (flatten (withMeta now (withRid freshId data))) get_all_columns

/-- The row written by `update_response` (app.py line 475): the same
flattening, but `submitted_at` is unconditionally reassigned first
(`data["submitted_at"] = datetime.now().isoformat()`, line 490). -/
def update_response_row (now : String) (data : Dict) : List String :=
  rowStrings (flatten (setKey data "submitted_at" (.str now))) get_all_columns

/-- Python `==` between a record value and a sheet cell string: true exactly
for an equal string. -/
def valEqStr (v : Value) (s : String) : Bool :=
  match v with
  | .str t => t == s
  | _ => false

/-- The remote store and its failure injection points.  `sheet` is the
current Sheets content (header row first); each flag makes the
corresponding API call raise (`ConnectivityError` and kin are all caught by
the same `except` clauses, so only the raising site matters). -/
structure RemoteEnv where
  sheet : List (List String)
  lookupReadFails : Bool
  emptyCheckFails : Bool
  headerWriteFails : Bool
  rowWriteFails : Bool

/-- The scan loop of `check_for_existing_response` (app.py lines 310-312):
1-based sheet positions starting at 2, first match returned; a row too short
to reach the column does not match. -/
def scanForId (idCol : Nat) (rid : Value) : List (List String) → Nat → Bool × Option Nat
  | [], _ => (false, none)
  | row :: rest, idx =>
    match row[idCol]? with
    | some cell => if valEqStr rid cell then (true, some idx) else scanForId idCol rid rest (idx + 1)
    | none => scanForId idCol rid rest (idx + 1)

/-- The body of `check_for_existing_response` on successfully read sheet
values: empty or header-only sheets and headers without a `response_id`
column report not-found. -/
def check_for_existing_response_data (values : List (List String)) (rid : Value) :
    Bool × Option Nat :=
  if values.length < 2 then (false, none) else
  match values with
  | [] => (false, none)
  | headers :: rows =>
    match headers.findIdx? (· == "response_id") with
    | none => (false, none)
    | some col => scanForId col rid rows 2

/-- `check_for_existing_response` (app.py lines 281-318): the whole body sits
in a `try` whose `except` catches every exception — a failing read is
reported as `(False, None)`, indistinguishable from not-found. -/
def check_for_existing_response (env : RemoteEnv) (rid : Value) : Bool × Option Nat :=
  if env.lookupReadFails then (false, none)
  else check_for_existing_response_data env.sheet rid

/-- Outcomes of one `save_response` call.  `updated`/`inserted`/
`savedLocally` are the `return True` paths, `duplicateSkippedLocal` the
`return False` path of the local duplicate guard, `raised` an exception
escaping the fallback itself (e.g. `csv.DictWriter` rejecting a field not in
the registry). -/
inductive SaveOutcome
  | updated
  | inserted
  | savedLocally
  | duplicateSkippedLocal
  | raised
deriving DecidableEq

/-- Result state of one `save_response` call. -/
structure SaveResult where
  outcome : SaveOutcome
  sheet : List (List String)
  file : Option (List (List String))

/-- The `response_id` values already present in the local fallback file, as
`csv.DictReader` yields them: first row is the header, missing cells read as
empty, falsy values are dropped by the comprehension's filter. -/
def localExistingIds (file : Option (List (List String))) : List String :=
  match file with
  | none => []
  | some [] => []
  | some (hdr :: rows) =>
    match hdr.findIdx? (· == "response_id") with
    | some c => (rows.map (fun r => r.getD c "")).filter (fun s => s ≠ "")
    | none => []

/-- The local CSV fallback of `save_response` (app.py lines 396-421): refuse
when the id is already present locally, otherwise append one row, writing
the header first when the file does not exist.  `csv.DictWriter` (default
`extrasaction="raise"`) raises when the record carries a field outside the
registry. -/
def localFallback (flat : Dict) (rid : Value) (file : Option (List (List String))) :
    SaveOutcome × Option (List (List String)) :=
  if (localExistingIds file).any (fun s => valEqStr rid s) then
    (.duplicateSkippedLocal, file)
  else if (flat.map Prod.fst).all (fun k => get_all_columns.contains k) then
    let row := rowStrings flat get_all_columns
    match file with
    | none => (.savedLocally, some [get_all_columns, row])
    | some f => (.savedLocally, some (f ++ [row]))
  else (.raised, file)

/-- Overwrite the sheet row at 1-based position `n` (header is row 1), as the
`update` call on range `Sheet1!A{n}` does. -/
def writeRowAt (sheet : List (List String)) (n : Nat) (row : List String) :
    List (List String) :=
  sheet.set (n - 1) row

/-- The A1:A1 emptiness probe of `save_response` (lines 368-374): the API
returns no values exactly when the sheet has no first row or the first row
has no cells. -/
def sheetIsEmpty : List (List String) → Bool
  | [] => true
  | r :: _ => r.isEmpty

/-- Embedding of `save_response` (app.py lines 320-421).  `env` fixes the
remote content and which remote calls raise; `file` is the local fallback
file; `freshId` and `now` stand for `str(uuid.uuid4())` and
`datetime.now().isoformat()`.  Any raising remote call lands in the
`except` branch, i.e. `localFallback`. -/
def save_response (env : RemoteEnv) (file : Option (List (List String)))
    (freshId now : String) (data0 : Dict) : SaveResult :=
  let data := withMeta now (withRid freshId data0)
  let flat := flatten data
  let rid := (data.lookup "response_id").getD .null
  let row := rowStrings flat get_all_columns
  match check_for_existing_response env rid with
  | (true, some n) =>
    if env.rowWriteFails then
      let (o, f) := localFallback flat rid file
      ⟨o, env.sheet, f⟩
    else ⟨.updated, writeRowAt env.sheet n row, file⟩
  | _ =>
    if env.emptyCheckFails then
      let (o, f) := localFallback flat rid file
      ⟨o, env.sheet, f⟩
    else
      let sheet1 := if sheetIsEmpty env.sheet then
          match env.sheet with
          | [] => [get_all_columns]
          | _ :: rest => get_all_columns :: rest
        else env.sheet
      if sheetIsEmpty env.sheet ∧ env.headerWriteFails then
        let (o, f) := localFallback flat rid file
        ⟨o, env.sheet, f⟩
      else if env.rowWriteFails then
        let (o, f) := localFallback flat rid file
        ⟨o, env.sheet, f⟩
      else ⟨.inserted, sheet1 ++ [row], file⟩

/-- Number of data rows of a sheet whose first cell (the `response_id`
column when the header is the registry) equals `rid`. -/
def sheetIdCount (sheet : List (List String)) (rid : String) : Nat :=
  match sheet with
  | [] => 0
  | _ :: rows => (rows.filter (fun r => r.getD 0 "" == rid)).length

/-! ### Reconciler lemmas -/

theorem cellAt_normWidth (col width : Nat) (row : List String) (h : col < width) :
    cellAt col (normWidth width row) = cellAt col row := by
  unfold cellAt normWidth
  split
  · rcases Nat.lt_or_ge col row.length with hc | hc
    · simp [List.getD_eq_getElem?_getD, List.getElem?_append_left, hc]
    · rw [List.getD_eq_getElem?_getD, List.getD_eq_getElem?_getD,
        List.getElem?_append_right hc]
      rcases Nat.lt_or_ge (col - row.length) (width - row.length) with hr | hr
      · simp [List.getElem?_replicate, hr, List.getElem?_eq_none hc]
      · simp [List.getElem?_eq_none, hr, hc, List.length_replicate]
  · rw [List.getD_eq_getElem?_getD, List.getD_eq_getElem?_getD, List.getElem?_take_of_lt h]

theorem dedupLast_sublist (c : Nat) : ∀ l, List.Sublist (dedupLast c l) l := by
  intro l
  induction l with
  | nil => simp [dedupLast]
  | cons r rs ih =>
    rw [dedupLast]
    split
    · exact ih.trans (List.sublist_cons_self r rs)
    · exact ih.cons₂ r

theorem mem_ids_dedupLast (c : Nat) (id : String) :
    ∀ l, id ∈ (dedupLast c l).map (cellAt c) ↔ id ∈ l.map (cellAt c) := by
  intro l
  induction l with
  | nil => simp [dedupLast]
  | cons r rs ih =>
    rw [dedupLast]
    split
    · next hdup =>
      simp only [List.map_cons, List.mem_cons, ih]
      constructor
      · exact Or.inr
      · rintro (h | h)
        · rcases List.any_eq_true.mp hdup with ⟨r2, hr2, he⟩
          exact List.mem_map.mpr ⟨r2, hr2, by rw [eq_of_beq he, h]⟩
        · exact h
    · simp [ih]

theorem nodup_ids_dedupLast (c : Nat) : ∀ l, ((dedupLast c l).map (cellAt c)).Nodup := by
  intro l
  induction l with
  | nil => simp [dedupLast]
  | cons r rs ih =>
    rw [dedupLast]
    split
    · exact ih
    · next hdup =>
      simp only [List.map_cons, List.nodup_cons]
      refine ⟨fun hmem => ?_, ih⟩
      rcases List.mem_map.mp ((mem_ids_dedupLast c _ rs).mp hmem) with ⟨r2, hr2, he⟩
      exact hdup (List.any_eq_true.mpr ⟨r2, hr2, beq_iff_eq.mpr he⟩)

/-- The `response_id` column index returned by `findIdx?` is within the header. -/
theorem idCol_lt_header {header : List String} {idCol : Nat}
    (hid : header.findIdx? (· == "response_id") = some idCol) : idCol < header.length :=
  (List.findIdx?_eq_some_iff_findIdx_eq.mp hid).1

/-- Claim C1.  For a sheet whose header carries a `response_id` column, the
canonical dataset produced by `load_responses` has pairwise-distinct
`response_id`s, and a non-empty `response_id` occurs in the canonical dataset
exactly when it occurs in the raw data rows: together, exactly one surviving
row per distinct non-empty `response_id` of the input. -/
theorem load_responses_unique_ids (header : List String) (rawRows : List (List String))
    (idCol : Nat) (hne : rawRows ≠ [])
    (hid : header.findIdx? (· == "response_id") = some idCol) :
    ((load_responses (header :: rawRows)).map (cellAt idCol)).Nodup ∧
    ∀ id, id ≠ "" →
      (id ∈ (load_responses (header :: rawRows)).map (cellAt idCol) ↔
        id ∈ rawRows.map (cellAt idCol)) := by
  have h2 : ¬((header :: rawRows).length < 2) := by
    rcases rawRows with _ | ⟨r, rs⟩
    · exact absurd rfl hne
    · simp [Nat.succ_le_succ, Nat.succ_le_of_lt]
  rw [load_responses, if_neg h2]
  simp only [hid]
  constructor
  · exact nodup_ids_dedupLast idCol _
  · intro id hnz
    rw [mem_ids_dedupLast]
    have hperm :
        List.Perm
          ((List.insertionSort (tsRel header)
            ((rawRows.map (normWidth header.length)).filter
              (fun r => cellAt idCol r ≠ ""))).map (cellAt idCol))
          (((rawRows.map (normWidth header.length)).filter
              (fun r => cellAt idCol r ≠ "")).map (cellAt idCol)) :=
      (List.perm_insertionSort (tsRel header) _).map (cellAt idCol)
    rw [hperm.mem_iff]
    constructor
    · intro hmem
      rcases List.mem_map.mp hmem with ⟨r, hr, he⟩
      have hr' : r ∈ rawRows.map (normWidth header.length) := (List.mem_filter.mp hr).1
      rcases List.mem_map.mp hr' with ⟨r0, hr0, he0⟩
      refine List.mem_map.mpr ⟨r0, hr0, ?_⟩
      rw [← he, ← he0, cellAt_normWidth idCol header.length r0 (idCol_lt_header hid)]
    · intro hmem
      rcases List.mem_map.mp hmem with ⟨r0, hr0, he0⟩
      refine List.mem_map.mpr ⟨normWidth header.length r0, List.mem_filter.mpr ⟨?_, ?_⟩, ?_⟩
      · exact List.mem_map.mpr ⟨r0, hr0, rfl⟩
      · rw [cellAt_normWidth idCol header.length r0 (idCol_lt_header hid), he0]
        exact decide_eq_true hnz
      · rw [cellAt_normWidth idCol header.length r0 (idCol_lt_header hid), he0]

/-- Witness for C1 at a concrete sheet with a duplicated identifier. -/
theorem load_responses_unique_ids_witness :
    ((load_responses [["response_id"], ["A"], ["A"]]).map (cellAt 0)).Nodup ∧
    ("A" ∈ (load_responses [["response_id"], ["A"], ["A"]]).map (cellAt 0) ↔
      "A" ∈ [["A"], ["A"]].map (cellAt 0)) :=
  ⟨(load_responses_unique_ids ["response_id"] [["A"], ["A"]] 0 (by decide) (by decide)).1,
    (load_responses_unique_ids ["response_id"] [["A"], ["A"]] 0 (by decide) (by decide)).2
      "A" (by decide)⟩

/-- Claim C3 (divergence witness).  Two raw rows share `response_id` `X`; one
`submitted_at` parses, the other does not.  In both physical orders the code
keeps the row with the unparseable timestamp: pandas `sort_values` places
`NaT` last (default `na_position="last"`) and `drop_duplicates(keep="last")`
then retains it, contradicting the documented "kept most recent" rule. -/
theorem load_responses_unparseable_wins :
    load_responses
        [["response_id", "submitted_at"],
         ["X", "2024-01-01T00:00:00"], ["X", "garbage"]] = [["X", "garbage"]] ∧
    load_responses
        [["response_id", "submitted_at"],
         ["X", "garbage"], ["X", "2024-01-01T00:00:00"]] = [["X", "garbage"]] ∧
    parseTimestamp "garbage" = none ∧
    parseTimestamp "2024-01-01T00:00:00" = some 20240101000000000000 :=
  ⟨by decide, by decide, rfl, rfl⟩

/-- Counterexample to claim C9 as stated.  Rows `A` then `B` both survive
reconciliation, but the output lists `B` (earlier timestamp) before `A`: the
surviving rows are not returned in their original relative order. -/
theorem load_responses_not_input_order :
    load_responses
        [["response_id", "submitted_at"],
         ["A", "2024-01-02T00:00:00"], ["B", "2024-01-01T00:00:00"]] =
      [["B", "2024-01-01T00:00:00"], ["A", "2024-01-02T00:00:00"]] ∧
    (["A", "2024-01-02T00:00:00"] : List String) ≠ ["B", "2024-01-01T00:00:00"] :=
  ⟨by decide, by decide⟩

/-- Claim C9 as amended.  The reconciler returns the surviving rows sorted by
parsed `submitted_at` in non-decreasing order (rows with unparseable
timestamps last, as `⊤`), not in their original relative input order. -/
theorem load_responses_sorted (header : List String) (rawRows : List (List String))
    (hne : rawRows ≠ []) :
    List.Sorted (tsRel header) (load_responses (header :: rawRows)) := by
  have h2 : ¬((header :: rawRows).length < 2) := by
    rcases rawRows with _ | ⟨r, rs⟩
    · exact absurd rfl hne
    · simp [Nat.succ_le_succ, Nat.succ_le_of_lt]
  rw [load_responses, if_neg h2]
  cases hid : header.findIdx? (· == "response_id") with
  | none => simp [List.Sorted]
  | some idCol =>
    simp only []
    exact List.Pairwise.sublist (dedupLast_sublist idCol _)
      (List.sorted_insertionSort (tsRel header) _)

/-! ### Normalizer lemmas -/

theorem flattenVal_of_scalar (v : Value) (h : isCollection v = false) : flattenVal v = v := by
  cases v <;> simp_all [isCollection, flattenVal]

theorem flattenVal_of_collection (v : Value) (h : isCollection v = true) :
    flattenVal v = .str (dumps v) := by
  cases v <;> simp_all [isCollection, flattenVal]

theorem lookup_cons_eq (k : String) (v : Value) (d : Dict) :
    ((k, v) :: d).lookup k = some v := by
  simp [List.lookup_cons]

theorem lookup_cons_ne {k k1 : String} (v1 : Value) (d : Dict) (h : k ≠ k1) :
    ((k1, v1) :: d).lookup k = d.lookup k := by
  simp [List.lookup_cons, beq_eq_false_iff_ne.mpr h]

theorem lookup_opt_prepend (cond : Prop) [Decidable cond] (k1 : String) (v1 : Value)
    (t : Dict) (k : String) (h : k ≠ k1) :
    ((if cond then ([] : Dict) else [(k1, v1)]) ++ t).lookup k = t.lookup k := by
  split
  · rw [List.nil_append]
  · rw [List.cons_append, List.nil_append, lookup_cons_ne _ _ h]

theorem keys_flatten (d : Dict) : (flatten d).map Prod.fst = d.map Prod.fst := by
  induction d with
  | nil => rfl
  | cons kv d ih => simp [flatten, List.map_cons] at ih ⊢

theorem lookup_flatten (d : Dict) (k : String) :
    (flatten d).lookup k = (d.lookup k).map flattenVal := by
  induction d with
  | nil => rfl
  | cons kv d ih =>
    rcases kv with ⟨k1, v1⟩
    by_cases h : k = k1
    · subst h
      simp only [flatten, List.map_cons]
      rw [lookup_cons_eq, lookup_cons_eq]
      rfl
    · simp only [flatten, List.map_cons] at ih ⊢
      rw [lookup_cons_ne _ _ h, lookup_cons_ne _ _ h, ih]

theorem lookup_append_left {d1 d2 : Dict} {k : String} {v : Value}
    (h : d1.lookup k = some v) : (d1 ++ d2).lookup k = some v := by
  induction d1 with
  | nil => simp [List.lookup_nil] at h
  | cons kv d ih =>
    rcases kv with ⟨k1, v1⟩
    by_cases he : k = k1
    · subst he
      rw [lookup_cons_eq] at h
      rw [List.cons_append, lookup_cons_eq]
      exact h
    · rw [lookup_cons_ne _ _ he] at h
      rw [List.cons_append, lookup_cons_ne _ _ he]
      exact ih h

theorem lookup_append_right {d1 d2 : Dict} {k : String}
    (h : d1.lookup k = none) : (d1 ++ d2).lookup k = d2.lookup k := by
  induction d1 with
  | nil => simp
  | cons kv d ih =>
    rcases kv with ⟨k1, v1⟩
    by_cases he : k = k1
    · subst he
      rw [lookup_cons_eq] at h
      exact absurd h (by simp)
    · rw [lookup_cons_ne _ _ he] at h
      rw [List.cons_append, lookup_cons_ne _ _ he]
      exact ih h

theorem lookup_withRid_ne (f : String) (d : Dict) (k : String) (h : k ≠ "response_id") :
    (withRid f d).lookup k = d.lookup k := by
  unfold withRid
  split
  · rfl
  · rcases hk : d.lookup k with _ | v
    · rw [lookup_append_right hk, lookup_cons_ne _ _ h, List.lookup_nil, hk.symm]
    · exact lookup_append_left hk

theorem withRid_of_present (f : String) (d : Dict) (h : (d.lookup "response_id").isSome) :
    withRid f d = d := by
  unfold withRid
  exact if_pos h

theorem lookup_withMeta_ne (now : String) (d : Dict) (k : String)
    (h1 : k ≠ "schema_version") (h2 : k ≠ "submitted_at") :
    (withMeta now d).lookup k = d.lookup k := by
  unfold withMeta
  rw [List.append_assoc, lookup_opt_prepend _ _ _ _ _ h1, lookup_opt_prepend _ _ _ _ _ h2]

theorem lookup_withMeta_submitted_none (now : String) (d : Dict)
    (h : d.lookup "submitted_at" = none) :
    (withMeta now d).lookup "submitted_at" = some (.str now) := by
  unfold withMeta
  rw [List.append_assoc,
    lookup_opt_prepend _ _ _ _ _ (by decide : "submitted_at" ≠ "schema_version"),
    if_neg (by simp [h]), List.cons_append, List.nil_append, lookup_cons_eq]

theorem lookup_withMeta_submitted_some (now : String) (d : Dict) (v : Value)
    (h : d.lookup "submitted_at" = some v) :
    (withMeta now d).lookup "submitted_at" = some v := by
  unfold withMeta
  rw [List.append_assoc,
    lookup_opt_prepend _ _ _ _ _ (by decide : "submitted_at" ≠ "schema_version"),
    if_pos (by simp [h]), List.nil_append]
  exact h

theorem lookup_setKey (d : Dict) (k : String) (v : Value) :
    (setKey d k v).lookup k = some v := by
  unfold setKey
  split
  · next h =>
    induction d with
    | nil => simp at h
    | cons kv d ih =>
      rcases kv with ⟨k1, v1⟩
      by_cases he : k = k1
      · subst he
        have hb : (k == k) = true := beq_self_eq_true k
        simp only [List.map_cons, hb, if_pos]
        exact lookup_cons_eq k v _
      · have hb : (k1 == k) = false := beq_eq_false_iff_ne.mpr (Ne.symm he)
        simp only [List.map_cons, hb, Bool.false_eq_true, if_false]
        rw [lookup_cons_ne _ _ he] at h
        rw [lookup_cons_ne _ _ he]
        exact ih h
  · next h =>
    rw [lookup_append_right (Option.not_isSome_iff_eq_none.mp h)]
    exact lookup_cons_eq k v []

theorem buildRow_length (flat : Dict) (cols : List String) :
    (buildRow flat cols).length = cols.length := by
  simp [buildRow]

theorem buildRow_getD (flat : Dict) (cols : List String) (i : Nat) (hi : i < cols.length) :
    (buildRow flat cols).getD i (.str "") =
      (flat.lookup (cols.getD i "")).getD (.str "") := by
  simp [buildRow, List.getD_eq_getElem?_getD, List.getElem?_map, List.getElem?_eq_getElem hi]

theorem rowStrings_getD (flat : Dict) (cols : List String) (i : Nat) (hi : i < cols.length) :
    (rowStrings flat cols).getD i "" =
      csvCell ((flat.lookup (cols.getD i "")).getD (.str "")) := by
  simp [rowStrings, buildRow, List.getD_eq_getElem?_getD, List.getElem?_map,
    List.getElem?_eq_getElem hi]

theorem lookup_filter_mem (d : Dict) (cols : List String) (c : String)
    (hc : cols.contains c = true) :
    (d.filter (fun kv => cols.contains kv.1)).lookup c = d.lookup c := by
  induction d with
  | nil => rfl
  | cons kv d ih =>
    rcases kv with ⟨k1, v1⟩
    by_cases he : c = k1
    · subst he
      simp only [List.filter_cons, hc, if_pos]
      rw [lookup_cons_eq, lookup_cons_eq]
    · rcases hf : cols.contains k1 with _ | _
      · simp only [List.filter_cons, hf, Bool.false_eq_true, if_false]
        rw [lookup_cons_ne _ _ he]
        exact ih
      · simp only [List.filter_cons, hf, if_true]
        rw [lookup_cons_ne _ _ he, lookup_cons_ne _ _ he]
        exact ih

/-- Witness for the amended C9 at a concrete sheet. -/
theorem load_responses_sorted_witness :
    List.Sorted (tsRel ["response_id", "submitted_at"])
      (load_responses
        [["response_id", "submitted_at"],
         ["A", "2024-01-02T00:00:00"], ["B", "2024-01-01T00:00:00"]]) :=
  load_responses_sorted ["response_id", "submitted_at"]
    [["A", "2024-01-02T00:00:00"], ["B", "2024-01-01T00:00:00"]] (by decide)

/-! ### Normalizer theorems -/

/-- Claim C7.  The row built by the normalizer corresponds exactly to the
Schema Registry columns in registry order: it has one cell per registry
column; a list- or dict-valued input field is serialized to its JSON text; a
scalar input field passes through unchanged; a registry field absent from
the input becomes the empty string; and fields outside the registry have no
effect on the row (restricting the record to registry fields leaves the row
unchanged). -/
theorem normalizer_row_spec (data : Dict) :
    (buildRow (flatten data) get_all_columns).length = get_all_columns.length ∧
    (∀ i v, i < get_all_columns.length →
      data.lookup (get_all_columns.getD i "") = some v → isCollection v = true →
      (buildRow (flatten data) get_all_columns).getD i (.str "") = .str (dumps v)) ∧
    (∀ i v, i < get_all_columns.length →
      data.lookup (get_all_columns.getD i "") = some v → isCollection v = false →
      (buildRow (flatten data) get_all_columns).getD i (.str "") = v) ∧
    (∀ i, i < get_all_columns.length →
      data.lookup (get_all_columns.getD i "") = none →
      (buildRow (flatten data) get_all_columns).getD i (.str "") = .str "") ∧
    buildRow (flatten data) get_all_columns =
      buildRow (flatten (data.filter (fun kv => get_all_columns.contains kv.1)))
        get_all_columns := by
  refine ⟨buildRow_length _ _, ?_, ?_, ?_, ?_⟩
  · intro i v hi hl hc
    rw [buildRow_getD _ _ i hi, lookup_flatten, hl]
    simp [flattenVal_of_collection v hc]
  · intro i v hi hl hc
    rw [buildRow_getD _ _ i hi, lookup_flatten, hl]
    simp [flattenVal_of_scalar v hc]
  · intro i hi hl
    rw [buildRow_getD _ _ i hi, lookup_flatten, hl]
    rfl
  · unfold buildRow
    apply List.map_congr_left
    intro c hc
    rw [lookup_flatten, lookup_flatten,
      lookup_filter_mem _ _ _ (List.elem_eq_true_of_mem hc)]

/-- Witness for C7 at a concrete record carrying a dict-valued field, a
scalar field, an absent registry field (`country`, column 3) and a field
outside the registry. -/
theorem normalizer_row_spec_witness :
    (buildRow (flatten [("response_id", Value.str "A1"), ("current_members", Value.num 12),
        ("wheel_inventory", Value.obj [("BrentC", Value.num 2)]),
        ("junk_field", Value.str "x")]) get_all_columns).length = get_all_columns.length ∧
    (buildRow (flatten [("response_id", Value.str "A1"), ("current_members", Value.num 12),
        ("wheel_inventory", Value.obj [("BrentC", Value.num 2)]),
        ("junk_field", Value.str "x")]) get_all_columns).getD 23 (.str "") =
      .str (dumps (Value.obj [("BrentC", Value.num 2)])) ∧
    (buildRow (flatten [("response_id", Value.str "A1"), ("current_members", Value.num 12),
        ("wheel_inventory", Value.obj [("BrentC", Value.num 2)]),
        ("junk_field", Value.str "x")]) get_all_columns).getD 18 (.str "") = Value.num 12 ∧
    (buildRow (flatten [("response_id", Value.str "A1"), ("current_members", Value.num 12),
        ("wheel_inventory", Value.obj [("BrentC", Value.num 2)]),
        ("junk_field", Value.str "x")]) get_all_columns).getD 3 (.str "") = .str "" :=
  ⟨(normalizer_row_spec _).1,
    (normalizer_row_spec _).2.1 23 _ (by decide) rfl rfl,
    (normalizer_row_spec _).2.2.1 18 _ (by decide) rfl rfl,
    (normalizer_row_spec _).2.2.2.1 3 (by decide) rfl⟩

/-- Counterexample to claim C2 as stated.  A record that already carries a
`submitted_at` (as any record loaded from the store does) is persisted with
that caller-supplied timestamp: in `save_response` the dict literal puts
`**data` after the fresh metadata, so the caller's value overrides the fresh
one.  Here the stored `submitted_at` cell is the old `2020` value, not the
fresh `now` of the call. -/
theorem save_keeps_caller_timestamp :
    ((save_response ⟨[], false, false, false, false⟩ none "f0" "2024-06-01T00:00:00"
        [("response_id", Value.str "R1"),
         ("submitted_at", Value.str "2020-01-01T00:00:00")]).sheet.getD 1 []).getD 2 ""
      = "2020-01-01T00:00:00" ∧
    get_all_columns.getD 2 "" = "submitted_at" ∧
    (save_response ⟨[], false, false, false, false⟩ none "f0" "2024-06-01T00:00:00"
        [("response_id", Value.str "R1"),
         ("submitted_at", Value.str "2020-01-01T00:00:00")]).outcome = .inserted ∧
    "2020-01-01T00:00:00" ≠ "2024-06-01T00:00:00" :=
  ⟨rfl, rfl, rfl, by decide⟩

/-- Claim C2 as amended.  `save_response` stores a freshly generated
`submitted_at` only when the caller-supplied record lacks one; a
`submitted_at` already present in the record is persisted unchanged (so
re-persisting a loaded record does not advance it).  `update_response`, in
contrast, always refreshes the stored `submitted_at`. -/
theorem save_timestamp_refresh_rule (data : Dict) (freshId now : String) :
    (data.lookup "submitted_at" = none →
      (saveRow freshId now data).getD 2 "" = now) ∧
    (∀ t, data.lookup "submitted_at" = some (.str t) →
      (saveRow freshId now data).getD 2 "" = t) ∧
    (update_response_row now data).getD 2 "" = now := by
  have hcol : get_all_columns.getD 2 "" = "submitted_at" := rfl
  have hlen : (2 : Nat) < get_all_columns.length := by decide
  refine ⟨?_, ?_, ?_⟩
  · intro h
    rw [saveRow, rowStrings_getD _ _ 2 hlen, hcol, lookup_flatten,
      lookup_withMeta_submitted_none _ _
        (by rw [lookup_withRid_ne _ _ _ (by decide)]; exact h)]
    rfl
  · intro t h
    rw [saveRow, rowStrings_getD _ _ 2 hlen, hcol, lookup_flatten,
      lookup_withMeta_submitted_some _ _ _
        (by rw [lookup_withRid_ne _ _ _ (by decide)]; exact h)]
    rfl
  · rw [update_response_row, rowStrings_getD _ _ 2 hlen, hcol, lookup_flatten,
      lookup_setKey]
    rfl

/-- Witness for the amended C2: a record without `submitted_at` gets the
fresh timestamp; a record carrying one keeps it; `update_response` always
refreshes. -/
theorem save_timestamp_refresh_rule_witness :
    (saveRow "f0" "2024-06-01T00:00:00" [("response_id", Value.str "R1")]).getD 2 ""
      = "2024-06-01T00:00:00" ∧
    (saveRow "f0" "2024-06-01T00:00:00"
        [("submitted_at", Value.str "2020-01-01T00:00:00")]).getD 2 ""
      = "2020-01-01T00:00:00" ∧
    (update_response_row "2024-06-01T00:00:00"
        [("submitted_at", Value.str "2020-01-01T00:00:00")]).getD 2 ""
      = "2024-06-01T00:00:00" :=
  ⟨(save_timestamp_refresh_rule [("response_id", Value.str "R1")] "f0"
      "2024-06-01T00:00:00").1 rfl,
    (save_timestamp_refresh_rule [("submitted_at", Value.str "2020-01-01T00:00:00")] "f0"
      "2024-06-01T00:00:00").2.1 "2020-01-01T00:00:00" rfl,
    (save_timestamp_refresh_rule [("submitted_at", Value.str "2020-01-01T00:00:00")] "f0"
      "2024-06-01T00:00:00").2.2⟩

/-! ### Existence-lookup theorems -/

theorem scanForId_eq_findIdx (col : Nat) (rid : Value) :
    ∀ (rows : List (List String)) (base : Nat),
      scanForId col rid rows base =
        match rows.findIdx? (fun row => ((row[col]?).map (valEqStr rid)).getD false) with
        | some k => (true, some (base + k))
        | none => (false, none) := by
  intro rows
  induction rows with
  | nil => intro base; rfl
  | cons row rest ih =>
    intro base
    rw [scanForId, List.findIdx?_cons]
    rcases hc : row[col]? with _ | cell
    · simp only [hc, Option.map_none, Option.getD_none, Bool.false_eq_true, if_false,
        List.findIdx?_succ]
      rw [ih (base + 1)]
      cases h2 : rest.findIdx? (fun row => ((row[col]?).map (valEqStr rid)).getD false) with
      | none => simp
      | some k => simp [Nat.add_assoc, Nat.add_comm 1 k]
    · rcases he : valEqStr rid cell with _ | _
      · simp only [hc, he, Option.map_some, Option.getD_some, Bool.false_eq_true, if_false,
          List.findIdx?_succ]
        rw [ih (base + 1)]
        cases h2 : rest.findIdx? (fun row => ((row[col]?).map (valEqStr rid)).getD false) with
        | none => simp [he]
        | some k => simp [he, Nat.add_assoc, Nat.add_comm 1 k]
      · simp [hc, he]

/-- Counterexample to claim C4 as stated.  Rows 2 and 3 both match `X`; the
scan returns on the first hit, position 2, not the last matching position 3. -/
theorem lookup_returns_first_not_last :
    check_for_existing_response_data [["response_id"], ["X"], ["X"]] (.str "X") =
      (true, some 2) ∧ (2 : Nat) ≠ 3 :=
  ⟨rfl, by decide⟩

/-- Claim C4 as amended.  When any row matches, the existence lookup returns
`exists = true` together with the position of the FIRST matching row
(sheet position `2 + k` for the first matching index `k`), even when later
duplicates exist. -/
theorem lookup_returns_first_match (headers : List String) (rows : List (List String))
    (col k : Nat) (rid : Value)
    (hcol : headers.findIdx? (· == "response_id") = some col)
    (hfind : rows.findIdx?
        (fun row => ((row[col]?).map (valEqStr rid)).getD false) = some k) :
    check_for_existing_response_data (headers :: rows) rid = (true, some (2 + k)) := by
  have hne : rows ≠ [] := by
    rintro rfl
    simp at hfind
  have h2 : ¬((headers :: rows).length < 2) := by
    rcases rows with _ | ⟨r, rs⟩
    · exact absurd rfl hne
    · simp [Nat.succ_le_succ, Nat.succ_le_of_lt]
  rw [check_for_existing_response_data, if_neg h2]
  simp only [hcol]
  rw [scanForId_eq_findIdx, hfind]

/-- Witness for the amended C4: duplicates at positions 2 and 3, first
matching index 0, result position 2. -/
theorem lookup_returns_first_match_witness :
    check_for_existing_response_data [["response_id"], ["X"], ["X"]] (.str "X") =
      (true, some (2 + 0)) :=
  lookup_returns_first_match ["response_id"] [["X"], ["X"]] 0 0 (.str "X") rfl rfl

/-- Counterexample to claim C5 as stated.  The sheet does contain a row for
`R1`, but with the read failing the lookup reports `(false, none)` — exactly
the `not found` shape the claim says a connectivity failure can never
produce.  The second conjunct shows the same sheet, read successfully, would
have reported `(true, some 2)`. -/
theorem lookup_failure_masked_as_not_found :
    check_for_existing_response
        ⟨[["response_id"], ["R1"]], true, false, false, false⟩ (.str "R1") =
      (false, none) ∧
    check_for_existing_response_data [["response_id"], ["R1"]] (.str "R1") =
      (true, some 2) :=
  ⟨rfl, rfl⟩

/-- Claim C5 as amended.  A connectivity failure during the lookup read is
caught inside `check_for_existing_response` itself (its `except` clause) and
reported as `(exists = false, no position)`, indistinguishable from
not-found; no error distinct from not-found ever reaches `save_response`. -/
theorem lookup_failure_reported_as_not_found (env : RemoteEnv) (rid : Value)
    (h : env.lookupReadFails = true) :
    check_for_existing_response env rid = (false, none) := by
  rw [check_for_existing_response, if_pos h]

/-- Witness for the amended C5 at a concrete failing environment. -/
theorem lookup_failure_reported_as_not_found_witness :
    check_for_existing_response
        ⟨[["response_id"], ["R1"]], true, false, false, false⟩ (.str "R1") =
      (false, none) :=
  lookup_failure_reported_as_not_found
    ⟨[["response_id"], ["R1"]], true, false, false, false⟩ (.str "R1") rfl

/-! ### Persistence orchestrator theorems -/

theorem sheetIdCount_cons (hdr : List String) (rows : List (List String)) (rid : String) :
    sheetIdCount (hdr :: rows) rid = (rows.filter (fun r => r.getD 0 "" == rid)).length := rfl

theorem saveRow_rid_cell (now : String) (data : Dict) (rid : String)
    (hrid : data.lookup "response_id" = some (.str rid)) :
    (rowStrings (flatten (withMeta now data)) get_all_columns).getD 0 "" = rid := by
  have hcol0 : get_all_columns.getD 0 "" = "response_id" := by decide
  rw [rowStrings_getD _ _ 0 (by decide), hcol0, lookup_flatten,
    lookup_withMeta_ne _ _ _ (by decide) (by decide), hrid]
  rfl

theorem saveRow_rid_cell2 (now : String) (data : Dict) (rid : String)
    (hrid : data.lookup "response_id" = some (.str rid)) :
    ((rowStrings (flatten (withMeta now data)) get_all_columns)[0]?).getD "" = rid := by
  have h := saveRow_rid_cell now data rid hrid
  rwa [List.getD_eq_getElem?_getD] at h

theorem keys_withMeta_all (now : String) (data : Dict)
    (hkeys : ∀ k ∈ data.map Prod.fst, get_all_columns.contains k = true) :
    ((flatten (withMeta now data)).map Prod.fst).all
      (fun k => get_all_columns.contains k) = true := by
  rw [keys_flatten, List.all_eq_true]
  intro k hk
  unfold withMeta at hk
  simp only [List.map_append, List.mem_append] at hk
  rcases hk with (hA | hB) | hd
  · have hk1 : k = "schema_version" := by
      revert hA
      split <;> simp_all
    subst hk1
    decide
  · have hk1 : k = "submitted_at" := by
      revert hB
      split <;> simp_all
    subst hk1
    decide
  · exact hkeys k hd

/-- Claim C6.  With the remote store raising on every call, two consecutive
`save_response` calls for the same `response_id` leave the local fallback
file with exactly one row for that id: the first call appends one row after
writing the header (the file did not exist), the second is refused by the
local duplicate guard. -/
theorem local_fallback_dedup (env : RemoteEnv) (data : Dict) (rid : String)
    (fresh1 now1 fresh2 now2 : String)
    (hl : env.lookupReadFails = true) (he : env.emptyCheckFails = true)
    (hrid : data.lookup "response_id" = some (.str rid)) (hne : rid ≠ "")
    (hkeys : ∀ k ∈ data.map Prod.fst, get_all_columns.contains k = true) :
    (save_response env none fresh1 now1 data).outcome = .savedLocally ∧
    (save_response env none fresh1 now1 data).file =
      some [get_all_columns, rowStrings (flatten (withMeta now1 data)) get_all_columns] ∧
    (save_response env (save_response env none fresh1 now1 data).file
        fresh2 now2 data).outcome = .duplicateSkippedLocal ∧
    (save_response env (save_response env none fresh1 now1 data).file
        fresh2 now2 data).file = (save_response env none fresh1 now1 data).file ∧
    (localExistingIds (save_response env (save_response env none fresh1 now1 data).file
        fresh2 now2 data).file).count rid = 1 := by
  have hpres : (data.lookup "response_id").isSome := by rw [hrid]; rfl
  have hlf1 : localFallback (flatten (withMeta now1 data)) (Value.str rid) none =
      (.savedLocally,
        some [get_all_columns, rowStrings (flatten (withMeta now1 data)) get_all_columns]) := by
    rw [localFallback, if_neg (by simp [localExistingIds]),
      if_pos (keys_withMeta_all now1 data hkeys)]
  have hids : localExistingIds
      (some [get_all_columns, rowStrings (flatten (withMeta now1 data)) get_all_columns]) =
        [rid] := by
    rw [localExistingIds]
    rw [(by decide : get_all_columns.findIdx? (· == "response_id") = some 0)]
    simp only [List.map_cons, List.map_nil, List.filter_cons, List.filter_nil]
    rw [List.getD_eq_getElem?_getD, saveRow_rid_cell2 now1 data rid hrid]
    simp [hne]
  have hlf2 : localFallback (flatten (withMeta now2 data)) (Value.str rid)
      (some [get_all_columns, rowStrings (flatten (withMeta now1 data)) get_all_columns]) =
      (.duplicateSkippedLocal,
        some [get_all_columns, rowStrings (flatten (withMeta now1 data)) get_all_columns]) := by
    rw [localFallback, if_pos]
    rw [hids]
    simp [valEqStr]
  have hrid1 : (withMeta now1 data).lookup "response_id" = some (.str rid) := by
    rw [lookup_withMeta_ne _ _ _ (by decide) (by decide)]
    exact hrid
  have hrid2 : (withMeta now2 data).lookup "response_id" = some (.str rid) := by
    rw [lookup_withMeta_ne _ _ _ (by decide) (by decide)]
    exact hrid
  have hs1 : save_response env none fresh1 now1 data =
      ⟨.savedLocally, env.sheet,
        some [get_all_columns, rowStrings (flatten (withMeta now1 data)) get_all_columns]⟩ := by
    rw [save_response, withRid_of_present _ _ hpres]
    rw [check_for_existing_response, if_pos hl]
    simp only [hrid1, Option.getD_some, if_pos he, hlf1]
  have hs2 : save_response env
      (some [get_all_columns, rowStrings (flatten (withMeta now1 data)) get_all_columns])
      fresh2 now2 data =
      ⟨.duplicateSkippedLocal, env.sheet,
        some [get_all_columns, rowStrings (flatten (withMeta now1 data)) get_all_columns]⟩ := by
    rw [save_response, withRid_of_present _ _ hpres]
    rw [check_for_existing_response, if_pos hl]
    simp only [hrid2, Option.getD_some, if_pos he, hlf2]
  rw [hs1]
  rw [hs2]
  refine ⟨rfl, rfl, rfl, rfl, ?_⟩
  rw [hids]
  simp

/-- Witness for C6 at a concrete record and failing environment. -/
theorem local_fallback_dedup_witness :
    (save_response ⟨[], true, true, false, false⟩ none "f1" "2024-06-01T00:00:00"
        [("response_id", Value.str "R1")]).outcome = .savedLocally ∧
    (save_response ⟨[], true, true, false, false⟩
        (save_response ⟨[], true, true, false, false⟩ none "f1" "2024-06-01T00:00:00"
          [("response_id", Value.str "R1")]).file
        "f2" "2024-06-02T00:00:00" [("response_id", Value.str "R1")]).outcome =
      .duplicateSkippedLocal ∧
    (localExistingIds (save_response ⟨[], true, true, false, false⟩
        (save_response ⟨[], true, true, false, false⟩ none "f1" "2024-06-01T00:00:00"
          [("response_id", Value.str "R1")]).file
        "f2" "2024-06-02T00:00:00" [("response_id", Value.str "R1")]).file).count "R1" = 1 := by
  have h := local_fallback_dedup ⟨[], true, true, false, false⟩
    [("response_id", Value.str "R1")] "R1" "f1" "2024-06-01T00:00:00" "f2" "2024-06-02T00:00:00"
    rfl rfl rfl (by decide) (by intro k hk; simp at hk; subst hk; decide)
  exact ⟨h.1, h.2.2.1, h.2.2.2.2⟩

/-- Claim C10.  When the sheet already holds a row for the `response_id`, a
transient failure of the lookup read makes `check_for_existing_response`
report not-found, so `save_response` takes the append path: the write
succeeds and the sheet gains a second raw row for that id. -/
theorem transient_lookup_failure_duplicates (env : RemoteEnv)
    (rows : List (List String)) (file : Option (List (List String)))
    (data : Dict) (rid fresh now : String)
    (hsheet : env.sheet = get_all_columns :: rows)
    (hl : env.lookupReadFails = true) (he : env.emptyCheckFails = false)
    (hw : env.rowWriteFails = false)
    (hrid : data.lookup "response_id" = some (.str rid))
    (hcount : 1 ≤ sheetIdCount env.sheet rid) :
    (save_response env file fresh now data).outcome = .inserted ∧
    (save_response env file fresh now data).sheet =
      env.sheet ++ [rowStrings (flatten (withMeta now data)) get_all_columns] ∧
    sheetIdCount (save_response env file fresh now data).sheet rid =
      sheetIdCount env.sheet rid + 1 ∧
    2 ≤ sheetIdCount (save_response env file fresh now data).sheet rid := by
  have hpres : (data.lookup "response_id").isSome := by rw [hrid]; rfl
  have hemp : sheetIsEmpty env.sheet = false := by
    rw [hsheet]
    rfl
  have hs : save_response env file fresh now data =
      ⟨.inserted, env.sheet ++ [rowStrings (flatten (withMeta now data)) get_all_columns],
        file⟩ := by
    rw [save_response, withRid_of_present _ _ hpres]
    rw [check_for_existing_response, if_pos hl]
    simp only [he, Bool.false_eq_true, if_false, hemp, false_and, hw]
  rw [hs]
  refine ⟨rfl, rfl, ?_, ?_⟩
  · have hcell : ((rowStrings (flatten (withMeta now data)) get_all_columns).getD 0 ""
        == rid) = true := by
      simp only [saveRow_rid_cell now data rid hrid, beq_self_eq_true]
    rw [hsheet, List.cons_append, sheetIdCount_cons, sheetIdCount_cons, List.filter_append,
      List.length_append, List.filter_cons, hcell]
    simp
  · have hcell : ((rowStrings (flatten (withMeta now data)) get_all_columns).getD 0 ""
        == rid) = true := by
      simp only [saveRow_rid_cell now data rid hrid, beq_self_eq_true]
    have h2 : sheetIdCount (env.sheet ++
        [rowStrings (flatten (withMeta now data)) get_all_columns]) rid =
        sheetIdCount env.sheet rid + 1 := by
      rw [hsheet, List.cons_append, sheetIdCount_cons, sheetIdCount_cons, List.filter_append,
        List.length_append, List.filter_cons, hcell]
      simp
    rw [h2]
    omega

/-- Witness for C10: the sheet already holds a row for `R1`; with the lookup
read failing and the append succeeding, the saved sheet holds two rows for
`R1`. -/
theorem transient_lookup_failure_duplicates_witness :
    (save_response ⟨get_all_columns :: [["R1"]], true, false, false, false⟩ none
        "f1" "2024-06-01T00:00:00" [("response_id", Value.str "R1")]).outcome = .inserted ∧
    2 ≤ sheetIdCount (save_response ⟨get_all_columns :: [["R1"]], true, false, false, false⟩
        none "f1" "2024-06-01T00:00:00" [("response_id", Value.str "R1")]).sheet "R1" := by
  have h := transient_lookup_failure_duplicates
    ⟨get_all_columns :: [["R1"]], true, false, false, false⟩ [["R1"]] none
    [("response_id", Value.str "R1")] "R1" "f1" "2024-06-01T00:00:00"
    rfl rfl rfl rfl rfl (by decide)
  exact ⟨h.1, h.2.2.2⟩

/-! ### JSON round-trip: numerals and characters -/

theorem isDigit_ne_of {c : Char} (x : Char) (hd : c.isDigit = true)
    (hx : x.isDigit = false) : c ≠ x := by
  intro he
  subst he
  rw [hd] at hx
  simp at hx

theorem natDigitsAux_digits :
    ∀ fuel n, n < fuel → ∀ c ∈ natDigitsAux fuel n, c.isDigit = true := by
  intro fuel
  induction fuel with
  | zero => omega
  | succ fuel ih =>
    intro n h c hc
    rw [natDigitsAux] at hc
    split at hc
    · next h10 =>
      simp only [List.mem_singleton] at hc
      subst hc
      interval_cases n <;> decide
    · next h10 =>
      rcases List.mem_append.mp hc with h1 | h1
      · exact ih (n / 10) (by omega) c h1
      · simp only [List.mem_singleton] at h1
        subst h1
        have hb : n % 10 < 10 := Nat.mod_lt _ (by omega)
        generalize n % 10 = m at hb ⊢
        interval_cases m <;> decide

theorem digitsVal_append (l : List Char) (c : Char) :
    digitsVal (l ++ [c]) = digitsVal l * 10 + digitVal c := by
  unfold digitsVal
  rw [List.foldl_append]
  rfl

theorem digitsVal_natDigitsAux :
    ∀ fuel n, n < fuel → digitsVal (natDigitsAux fuel n) = n := by
  intro fuel
  induction fuel with
  | zero => omega
  | succ fuel ih =>
    intro n h
    rw [natDigitsAux]
    split
    · next h10 =>
      interval_cases n <;> decide
    · next h10 =>
      rw [digitsVal_append, ih (n / 10) (by omega)]
      have hd : digitVal (Char.ofNat (48 + n % 10)) = n % 10 := by
        have hb : n % 10 < 10 := Nat.mod_lt _ (by omega)
        generalize n % 10 = m at hb ⊢
        interval_cases m <;> decide
      rw [hd]
      omega

theorem natDigitsAux_head_pos :
    ∀ fuel n, n < fuel → 1 ≤ n →
      ∃ c cs, natDigitsAux fuel n = c :: cs ∧ c ≠ '0' ∧ c.isDigit = true := by
  intro fuel
  induction fuel with
  | zero => omega
  | succ fuel ih =>
    intro n h h1
    rw [natDigitsAux]
    split
    · next h10 =>
      refine ⟨Char.ofNat (48 + n), [], rfl, ?_, ?_⟩ <;>
        (interval_cases n <;> decide)
    · next h10 =>
      rcases ih (n / 10) (by omega) (by omega) with ⟨c, cs, heq, hne, hd⟩
      exact ⟨c, cs ++ [Char.ofNat (48 + n % 10)], by rw [heq]; rfl, hne, hd⟩

theorem natDigits_zero : natDigits 0 = ['0'] := rfl

theorem takeWhile_append_of_all (p : Char → Bool) :
    ∀ (l r : List Char), (∀ c ∈ l, p c = true) →
      (∀ c cs, r = c :: cs → p c = false) →
      (l ++ r).takeWhile p = l ∧ (l ++ r).dropWhile p = r := by
  intro l
  induction l with
  | nil =>
    intro r _ hr
    cases r with
    | nil => exact ⟨rfl, rfl⟩
    | cons c cs =>
      rw [List.nil_append, List.takeWhile_cons, List.dropWhile_cons, hr c cs rfl]
      exact ⟨rfl, rfl⟩
  | cons a l ih =>
    intro r hl hr
    have ha : p a = true := hl a (List.mem_cons_self a l)
    rw [List.cons_append, List.takeWhile_cons, List.dropWhile_cons, ha]
    rcases ih r (fun c hc => hl c (List.mem_cons_of_mem a hc)) hr with ⟨h1, h2⟩
    simp only [if_true]
    rw [h1, h2]
    exact ⟨rfl, rfl⟩

theorem stopsOk_head {rest : List Char} (h : stopsOk rest) :
    ∀ c cs, rest = c :: cs →
      c.isDigit = false ∧ (c = '.') = False ∧ (c = 'e') = False ∧ (c = 'E') = False := by
  intro c cs he
  subst he
  rcases h with h1 | h1 | h1 <;> subst h1 <;> refine ⟨by decide, ?_, ?_, ?_⟩ <;> simp <;> decide

theorem numTailOk_of_stopsOk {rest : List Char} (h : stopsOk rest) :
    numTailOk rest = true := by
  cases rest with
  | nil => rfl
  | cons c cs =>
    rcases h with h1 | h1 | h1 <;> subst h1 <;> rfl

theorem parseNatToken_natDigits (n : Nat) (rest : List Char) (hstop : stopsOk rest) :
    parseNatToken (natDigits n ++ rest) = some (n, rest) := by
  rcases Nat.eq_zero_or_pos n with rfl | hpos
  · rw [natDigits_zero]
    cases rest with
    | nil => rfl
    | cons c cs =>
      rcases stopsOk_head hstop c cs rfl with ⟨hd, h1, h2, h3⟩
      rw [List.cons_append, List.nil_append]
      simp only [parseNatToken, if_pos]
      simp [hd, h1, h2, h3]
  · rcases natDigitsAux_head_pos (n + 1) n (by omega) hpos with ⟨c, cs, heq, h0, hd⟩
    have hdall : ∀ x ∈ cs, x.isDigit = true := by
      intro x hx
      exact natDigitsAux_digits (n + 1) n (by omega) x (by rw [heq]; right; exact hx)
    have hrest : ∀ x xs, rest = x :: xs → x.isDigit = false := by
      intro x xs hx
      exact (stopsOk_head hstop x xs hx).1
    rcases takeWhile_append_of_all Char.isDigit cs rest hdall hrest with ⟨ht, hdw⟩
    rw [natDigits, heq, List.cons_append]
    simp only [parseNatToken]
    rw [if_neg h0, if_pos hd, ht, hdw, numTailOk_of_stopsOk hstop, if_pos rfl]
    have hv : digitsVal (c :: cs) = n := by
      have := digitsVal_natDigitsAux (n + 1) n (by omega)
      rw [heq] at this
      exact this
    rw [hv]

theorem parseIntToken_intChars (n : Int) (rest : List Char) (hstop : stopsOk rest) :
    parseIntToken (intChars n ++ rest) = some (n, rest) := by
  rw [intChars]
  split
  · next hneg =>
    rw [List.cons_append, parseIntToken, if_pos rfl, parseNatToken_natDigits _ _ hstop]
    show some (-((n.natAbs : Nat) : Int), rest) = some (n, rest)
    have : -((n.natAbs : Nat) : Int) = n := by omega
    rw [this]
  · next hneg =>
    have hne : natDigits n.natAbs ++ rest ≠ [] := by
      rcases Nat.eq_zero_or_pos n.natAbs with h0 | hpos
      · rw [h0, natDigits_zero]
        simp
      · rcases natDigitsAux_head_pos (n.natAbs + 1) n.natAbs (by omega) hpos with
          ⟨c, cs, heq, _, _⟩
        rw [natDigits, heq]
        simp
    rcases he : natDigits n.natAbs ++ rest with _ | ⟨c, cs⟩
    · exact absurd he hne
    · have hcd : c.isDigit = true := by
        rcases Nat.eq_zero_or_pos n.natAbs with h0 | hpos
        · rw [h0, natDigits_zero, List.cons_append, List.nil_append] at he
          injection he with he1 he2
          rw [← he1]
          decide
        · rcases natDigitsAux_head_pos (n.natAbs + 1) n.natAbs (by omega) hpos with
            ⟨c2, cs2, heq, _, hd2⟩
          rw [natDigits, heq, List.cons_append] at he
          injection he with he1 he2
          rw [← he1]
          exact hd2
      rw [parseIntToken, if_neg (isDigit_ne_of '-' hcd (by decide)), ← he,
        parseNatToken_natDigits _ _ hstop]
      show some (((n.natAbs : Nat) : Int), rest) = some (n, rest)
      have : ((n.natAbs : Nat) : Int) = n := by omega
      rw [this]

/-! ### JSON round-trip: string escapes -/

theorem char_toNat_valid (c : Char) :
    c.toNat < 55296 ∨ (57343 < c.toNat ∧ c.toNat < 1114112) := by
  rcases c.valid with h | ⟨h1, h2⟩
  · exact Or.inl (UInt32.toNat_lt_of_lt (by decide) h)
  · exact Or.inr ⟨UInt32.lt_toNat_of_lt (by decide) h1, UInt32.toNat_lt_of_lt (by decide) h2⟩

theorem hexVal?_hexDigitChar (d : Nat) (h : d < 16) : hexVal? (hexDigitChar d) = some d := by
  interval_cases d <;> decide

theorem parseHex4_hex4 (n : Nat) (h : n < 65536) (rest : List Char) :
    parseHex4 (hex4 n ++ rest) = some (n, rest) := by
  show parseHex4 (hexDigitChar (n / 4096 % 16) :: hexDigitChar (n / 256 % 16) ::
    hexDigitChar (n / 16 % 16) :: hexDigitChar (n % 16) :: rest) = some (n, rest)
  simp only [parseHex4]
  rw [hexVal?_hexDigitChar _ (by omega), hexVal?_hexDigitChar _ (by omega),
    hexVal?_hexDigitChar _ (by omega), hexVal?_hexDigitChar _ (by omega)]
  show some (n / 4096 % 16 * 4096 + n / 256 % 16 * 256 + n / 16 % 16 * 16 + n % 16, rest) =
    some (n, rest)
  have hsum : n / 4096 % 16 * 4096 + n / 256 % 16 * 256 + n / 16 % 16 * 16 + n % 16 = n := by
    omega
  rw [hsum]

theorem decodeEscape_u (cs : List Char) :
    decodeEscape ('u' :: cs) =
      match parseHex4 cs with
      | none => none
      | some (n, cs2) =>
        if 55296 ≤ n ∧ n ≤ 56319 then
          match cs2 with
          | '\\' :: 'u' :: cs3 =>
            match parseHex4 cs3 with
            | some (m, cs4) =>
              if 56320 ≤ m ∧ m ≤ 57343 then
                some (Char.ofNat (65536 + (n - 55296) * 1024 + (m - 56320)), cs4)
              else none
            | none => none
          | _ => none
        else if 56320 ≤ n ∧ n ≤ 57343 then none
        else some (Char.ofNat n, cs2) := rfl

theorem decodeEscape_u_single (n : Nat) (hlt : n < 65536)
    (h1 : ¬(55296 ≤ n ∧ n ≤ 56319)) (h2 : ¬(56320 ≤ n ∧ n ≤ 57343)) (rest : List Char) :
    decodeEscape ('u' :: (hex4 n ++ rest)) = some (Char.ofNat n, rest) := by
  rw [decodeEscape_u, parseHex4_hex4 _ hlt rest]
  dsimp only
  rw [if_neg h1, if_neg h2]

theorem decodeEscape_u_pair (hi lo : Nat) (hhi : 55296 ≤ hi ∧ hi ≤ 56319)
    (hlo : 56320 ≤ lo ∧ lo ≤ 57343) (rest : List Char) :
    decodeEscape ('u' :: (hex4 hi ++ ('\\' :: 'u' :: (hex4 lo ++ rest)))) =
      some (Char.ofNat (65536 + (hi - 55296) * 1024 + (lo - 56320)), rest) := by
  rw [decodeEscape_u, parseHex4_hex4 _ (by omega)]
  dsimp only
  rw [if_pos hhi]
  show (match parseHex4 (hex4 lo ++ rest) with
      | some (m, cs4) =>
        if 56320 ≤ m ∧ m ≤ 57343 then
          some (Char.ofNat (65536 + (hi - 55296) * 1024 + (m - 56320)), cs4)
        else none
      | none => none) = some (Char.ofNat (65536 + (hi - 55296) * 1024 + (lo - 56320)), rest)
  rw [parseHex4_hex4 _ (by omega) rest]
  dsimp only
  rw [if_pos hlo]

theorem escapeChar_cases (c : Char) :
    (escapeChar c = [c] ∧ c ≠ '"' ∧ c ≠ '\\' ∧ 32 ≤ c.toNat ∧ c.toNat ≤ 126) ∨
    (∃ t, escapeChar c = '\\' :: t ∧
      ∀ rest, decodeEscape (t ++ rest) = some (c, rest)) := by
  have hv := char_toNat_valid c
  by_cases h1 : c = '"'
  · subst h1; exact Or.inr ⟨['"'], rfl, fun rest => rfl⟩
  by_cases h2 : c = '\\'
  · subst h2; exact Or.inr ⟨['\\'], rfl, fun rest => rfl⟩
  by_cases h3 : c = '\n'
  · subst h3; exact Or.inr ⟨['n'], rfl, fun rest => rfl⟩
  by_cases h4 : c = '\r'
  · subst h4; exact Or.inr ⟨['r'], rfl, fun rest => rfl⟩
  by_cases h5 : c = '\t'
  · subst h5; exact Or.inr ⟨['t'], rfl, fun rest => rfl⟩
  by_cases h6 : c.toNat = 8
  · have hc : c = Char.ofNat 8 := by rw [← h6, Char.ofNat_toNat]
    subst hc
    exact Or.inr ⟨['b'], rfl, fun rest => rfl⟩
  by_cases h7 : c.toNat = 12
  · have hc : c = Char.ofNat 12 := by rw [← h7, Char.ofNat_toNat]
    subst hc
    exact Or.inr ⟨['f'], rfl, fun rest => rfl⟩
  by_cases h8 : c.toNat < 32 ∨ 126 < c.toNat
  · by_cases h9 : c.toNat < 65536
    · refine Or.inr ⟨'u' :: hex4 c.toNat, ?_, fun rest => ?_⟩
      · rw [escapeChar, if_neg h1, if_neg h2, if_neg h3, if_neg h4, if_neg h5,
          if_neg h6, if_neg h7, if_pos h8, if_pos h9]
      · show decodeEscape ('u' :: (hex4 c.toNat ++ rest)) = some (c, rest)
        have hns : ¬(55296 ≤ c.toNat ∧ c.toNat ≤ 56319) := by
          rcases hv with hA | ⟨hB1, hB2⟩ <;> omega
        have hns2 : ¬(56320 ≤ c.toNat ∧ c.toNat ≤ 57343) := by
          rcases hv with hA | ⟨hB1, hB2⟩ <;> omega
        rw [decodeEscape_u_single _ h9 hns hns2 rest, Char.ofNat_toNat]
    · have hup : c.toNat < 1114112 := by
        rcases hv with hA | ⟨hB1, hB2⟩ <;> omega
      refine Or.inr ⟨'u' :: hex4 (55296 + (c.toNat - 65536) / 1024) ++
        ('\\' :: 'u' :: hex4 (56320 + (c.toNat - 65536) % 1024)), ?_, fun rest => ?_⟩
      · rw [escapeChar, if_neg h1, if_neg h2, if_neg h3, if_neg h4, if_neg h5,
          if_neg h6, if_neg h7, if_pos h8, if_neg h9, List.cons_append]
      · have heq1 : ('u' :: hex4 (55296 + (c.toNat - 65536) / 1024) ++
            ('\\' :: 'u' :: hex4 (56320 + (c.toNat - 65536) % 1024))) ++ rest =
            'u' :: (hex4 (55296 + (c.toNat - 65536) / 1024) ++
              ('\\' :: 'u' :: (hex4 (56320 + (c.toNat - 65536) % 1024) ++ rest))) := by
          simp only [List.cons_append, List.append_assoc]
        rw [heq1, decodeEscape_u_pair _ _
          (by refine ⟨by omega, by omega⟩) (by refine ⟨by omega, by omega⟩) rest]
        have harith : 65536 + (55296 + (c.toNat - 65536) / 1024 - 55296) * 1024 +
            (56320 + (c.toNat - 65536) % 1024 - 56320) = c.toNat := by
          omega
        rw [harith, Char.ofNat_toNat]
  · refine Or.inl ⟨?_, h1, h2, by omega, by omega⟩
    rw [escapeChar, if_neg h1, if_neg h2, if_neg h3, if_neg h4, if_neg h5,
      if_neg h6, if_neg h7, if_neg h8]

theorem escapeChar_length_pos (c : Char) : 1 ≤ (escapeChar c).length := by
  rcases escapeChar_cases c with ⟨h, _⟩ | ⟨t, h, _⟩ <;> rw [h] <;> simp

theorem encFlatten_length (cs : List Char) :
    cs.length ≤ ((cs.map escapeChar).flatten).length := by
  induction cs with
  | nil => simp
  | cons c cs ih =>
    rw [List.map_cons, List.flatten_cons, List.length_cons, List.length_append]
    have := escapeChar_length_pos c
    omega

theorem parseStrChars_encode :
    ∀ (cs : List Char) (fuel : Nat) (rest : List Char), cs.length < fuel →
      parseStrChars fuel ((cs.map escapeChar).flatten ++ '"' :: rest) = some (cs, rest) := by
  intro cs
  induction cs with
  | nil =>
    intro fuel rest h
    cases fuel with
    | zero => omega
    | succ fuel =>
      rw [List.map_nil, List.flatten_nil, List.nil_append]
      simp only [parseStrChars]
      rw [if_pos trivial]
  | cons c cs ih =>
    intro fuel rest h
    cases fuel with
    | zero => omega
    | succ fuel =>
      have hlen : cs.length < fuel := by
        rw [List.length_cons] at h
        omega
      rcases escapeChar_cases c with ⟨hesc, hq, hb, h32, _⟩ | ⟨t, hesc, hdec⟩
      · rw [List.map_cons, List.flatten_cons, hesc, List.singleton_append,
          List.cons_append]
        simp only [parseStrChars]
        rw [if_neg hq, if_neg hb, if_neg (show ¬ c.toNat < 32 by omega),
          ih fuel rest hlen]
      · rw [List.map_cons, List.flatten_cons, hesc, List.cons_append, List.cons_append,
          List.append_assoc]
        simp only [parseStrChars]
        rw [if_pos trivial, hdec, if_neg (show ¬('\\' : Char) = '"' by decide)]
        dsimp only
        rw [ih fuel rest hlen]

/-! ### JSON round-trip: structure helpers -/

theorem jsonWs_eq_false {c : Char} (h1 : c ≠ ' ') (h2 : c ≠ '\t') (h3 : c ≠ '\n')
    (h4 : c ≠ '\r') : jsonWs c = false := by
  simp [jsonWs, h1, h2, h3, h4]

theorem skipWs_not_ws {c : Char} (cs : List Char) (h : jsonWs c = false) :
    skipWs (c :: cs) = c :: cs := by
  rw [skipWs, h]
  rfl

theorem skipWs_space (cs : List Char) : skipWs (' ' :: cs) = skipWs cs := rfl

theorem dumpsChars_arr (vs : List Value) : dumpsChars (.arr vs) = '[' :: dumpsArr vs := rfl

theorem dumpsChars_obj (kvs : List (String × Value)) :
    dumpsChars (.obj kvs) = braceOpen :: dumpsObj kvs := rfl

theorem dumpsChars_str (s : String) :
    dumpsChars (.str s) = '"' :: ((s.data.map escapeChar).flatten ++ ['"']) := rfl

theorem dumpsChars_num (n : Int) : dumpsChars (.num n) = intChars n := rfl

theorem dumpsArr_single (v : Value) : dumpsArr [v] = dumpsChars v ++ [']'] := rfl

theorem dumpsArr_cons2 (v1 v2 : Value) (vs : List Value) :
    dumpsArr (v1 :: v2 :: vs) = dumpsChars v1 ++ ',' :: ' ' :: dumpsArr (v2 :: vs) := rfl

theorem dumpsObj_single (k : String) (v : Value) :
    dumpsObj [(k, v)] = encodeStr k ++ ':' :: ' ' :: dumpsChars v ++ [braceClose] := rfl

theorem dumpsObj_cons2 (k1 : String) (v1 : Value) (m2 : String × Value)
    (kvs : List (String × Value)) :
    dumpsObj ((k1, v1) :: m2 :: kvs) =
      encodeStr k1 ++ ':' :: ' ' :: dumpsChars v1 ++ ',' :: ' ' :: dumpsObj (m2 :: kvs) := rfl

theorem dumps_head (v : Value) :
    ∃ c cs, dumpsChars v = c :: cs ∧ jsonWs c = false ∧ c ≠ ',' ∧ c ≠ ']' ∧
      c ≠ braceClose := by
  cases v with
  | null => exact ⟨'n', _, rfl, by decide, by decide, by decide, by decide⟩
  | bool b =>
    cases b
    · exact ⟨'f', _, rfl, by decide, by decide, by decide, by decide⟩
    · exact ⟨'t', _, rfl, by decide, by decide, by decide, by decide⟩
  | str s => exact ⟨'"', _, dumpsChars_str s, by decide, by decide, by decide, by decide⟩
  | arr vs => exact ⟨'[', _, dumpsChars_arr vs, by decide, by decide, by decide, by decide⟩
  | obj kvs =>
    exact ⟨braceOpen, _, dumpsChars_obj kvs, by decide, by decide, by decide, by decide⟩
  | num n =>
    rw [dumpsChars_num, intChars]
    split
    · exact ⟨'-', _, rfl, by decide, by decide, by decide, by decide⟩
    · have hdig : ∃ c cs, natDigits n.natAbs = c :: cs ∧ c.isDigit = true := by
        rcases Nat.eq_zero_or_pos n.natAbs with h0 | hpos
        · rw [h0, natDigits_zero]
          exact ⟨'0', [], rfl, by decide⟩
        · rcases natDigitsAux_head_pos (n.natAbs + 1) n.natAbs (by omega) hpos with
            ⟨c, cs, heq, _, hd⟩
          exact ⟨c, cs, heq, hd⟩
      rcases hdig with ⟨c, cs, heq, hd⟩
      refine ⟨c, cs, heq, ?_, ?_, ?_, ?_⟩
      · exact jsonWs_eq_false (isDigit_ne_of ' ' hd (by decide))
          (isDigit_ne_of '\t' hd (by decide)) (isDigit_ne_of '\n' hd (by decide))
          (isDigit_ne_of '\r' hd (by decide))
      · exact isDigit_ne_of ',' hd (by decide)
      · exact isDigit_ne_of ']' hd (by decide)
      · exact isDigit_ne_of braceClose hd (by decide)

theorem dumpsChars_length_pos (v : Value) : 1 ≤ (dumpsChars v).length := by
  rcases dumps_head v with ⟨c, cs, heq, _⟩
  rw [heq]
  simp

theorem dumpsArr_length_pos (vs : List Value) : 1 ≤ (dumpsArr vs).length := by
  cases vs with
  | nil => decide
  | cons v vs =>
    cases vs with
    | nil => rw [dumpsArr_single]; simp
    | cons v2 vs2 => rw [dumpsArr_cons2]; simp; omega

theorem dumpsObj_length_pos (kvs : List (String × Value)) : 1 ≤ (dumpsObj kvs).length := by
  cases kvs with
  | nil => decide
  | cons m kvs =>
    rcases m with ⟨k, v⟩
    cases kvs with
    | nil => rw [dumpsObj_single]; simp; omega
    | cons m2 kvs2 => rw [dumpsObj_cons2]; simp; omega

theorem dumpsArr_head {vs : List Value} (hne : vs ≠ []) :
    ∃ c cs, dumpsArr vs = c :: cs ∧ jsonWs c = false ∧ c ≠ ']' := by
  cases vs with
  | nil => exact absurd rfl hne
  | cons v vs =>
    rcases dumps_head v with ⟨c, cs0, heq, hws, _, hnr, _⟩
    cases vs with
    | nil => exact ⟨c, cs0 ++ [']'], by rw [dumpsArr_single, heq, List.cons_append], hws, hnr⟩
    | cons v2 vs2 =>
      exact ⟨c, cs0 ++ ',' :: ' ' :: dumpsArr (v2 :: vs2),
        by rw [dumpsArr_cons2, heq, List.cons_append], hws, hnr⟩

theorem dumpsObj_head {kvs : List (String × Value)} (hne : kvs ≠ []) :
    ∃ cs, dumpsObj kvs = '"' :: cs := by
  cases kvs with
  | nil => exact absurd rfl hne
  | cons m kvs =>
    rcases m with ⟨k, v⟩
    cases kvs with
    | nil =>
      refine ⟨((k.data.map escapeChar).flatten ++ ['"']) ++
        ':' :: ' ' :: dumpsChars v ++ [braceClose], ?_⟩
      rw [dumpsObj_single, encodeStr]
      simp [List.cons_append, List.append_assoc]
    | cons m2 kvs2 =>
      refine ⟨((k.data.map escapeChar).flatten ++ ['"']) ++
        ':' :: ' ' :: dumpsChars v ++ ',' :: ' ' :: dumpsObj (m2 :: kvs2), ?_⟩
      rw [dumpsObj_cons2, encodeStr]
      simp [List.cons_append, List.append_assoc]

theorem string_mk_data (s : String) : String.mk s.data = s := rfl

theorem nodupDeep_null : nodupDeep .null = true := rfl

theorem nodupDeep_arr (vs : List Value) : nodupDeep (.arr vs) = ndElems vs := rfl

theorem nodupDeep_obj_eq (kvs : List (String × Value)) :
    nodupDeep (.obj kvs) = (!hasDupKeys (kvs.map Prod.fst) && ndMembers kvs) := rfl

theorem ndElems_cons (v : Value) (vs : List Value) :
    ndElems (v :: vs) = (nodupDeep v && ndElems vs) := rfl

theorem ndMembers_cons (k : String) (v : Value) (kvs : List (String × Value)) :
    ndMembers ((k, v) :: kvs) = (nodupDeep v && ndMembers kvs) := rfl

theorem foldl_dictInsert (ps : List (String × Value)) :
    ∀ acc : List (String × Value),
      hasDupKeys (ps.map Prod.fst) = false →
      (∀ k ∈ ps.map Prod.fst, acc.lookup k = none) →
      ps.foldl (fun d kv => dictInsert d kv.1 kv.2) acc = acc ++ ps := by
  induction ps with
  | nil =>
    intro acc _ _
    rw [List.foldl_nil, List.append_nil]
  | cons m ps ih =>
    intro acc hdup hacc
    rcases m with ⟨k, v⟩
    have hk : acc.lookup k = none := hacc k (by simp)
    have hdup2 : (ps.map Prod.fst).contains k = false ∧
        hasDupKeys (ps.map Prod.fst) = false := by
      rw [List.map_cons, hasDupKeys] at hdup
      exact ⟨by simp_all, by simp_all⟩
    rw [List.foldl_cons]
    have hins : dictInsert acc k v = acc ++ [(k, v)] := by
      rw [dictInsert, if_neg (by rw [hk]; simp)]
    rw [hins, ih (acc ++ [(k, v)]) hdup2.2]
    · rw [List.append_assoc, List.singleton_append]
    · intro k2 hk2
      have hne : k2 ≠ k := by
        intro he
        subst he
        have := (List.contains_eq_any_beq _ _).symm.trans hdup2.1
        rw [List.any_eq_false] at this
        exact absurd (beq_self_eq_true k2) (by simpa using this k2 hk2)
      rw [lookup_append_right (hacc k2 (by simp [hk2])), lookup_cons_ne _ _ hne,
        List.lookup_nil]

theorem pairsToDict_eq_self (ps : List (String × Value))
    (h : hasDupKeys (ps.map Prod.fst) = false) : pairsToDict ps = ps := by
  rw [pairsToDict, foldl_dictInsert ps [] h (fun k _ => rfl), List.nil_append]

/-! ### JSON round-trip: scanner step equations -/

theorem parseValue_null (fuel : Nat) (rest : List Char) :
    parseValue (fuel + 1) ('n' :: 'u' :: 'l' :: 'l' :: rest) = some (.null, rest) := rfl

theorem parseValue_true (fuel : Nat) (rest : List Char) :
    parseValue (fuel + 1) ('t' :: 'r' :: 'u' :: 'e' :: rest) = some (.bool true, rest) := rfl

theorem parseValue_false (fuel : Nat) (rest : List Char) :
    parseValue (fuel + 1) ('f' :: 'a' :: 'l' :: 's' :: 'e' :: rest) =
      some (.bool false, rest) := rfl

theorem parseValue_quote (fuel : Nat) (cs : List Char) :
    parseValue (fuel + 1) ('"' :: cs) =
      match parseStrChars (cs.length + 1) cs with
      | some (out, r) => some (.str (String.mk out), r)
      | none => none := rfl

theorem parseValue_bracket (fuel : Nat) (cs : List Char) :
    parseValue (fuel + 1) ('[' :: cs) =
      match skipWs cs with
      | c2 :: r2 =>
        if c2 = ']' then some (.arr [], r2)
        else
          match parseElems fuel (c2 :: r2) with
          | some (vs, r3) => some (.arr vs, r3)
          | none => none
      | [] => none := rfl

theorem parseValue_brace (fuel : Nat) (cs : List Char) :
    parseValue (fuel + 1) (braceOpen :: cs) =
      match skipWs cs with
      | c2 :: r2 =>
        if c2 = braceClose then some (.obj [], r2)
        else
          match parseMembers fuel (c2 :: r2) with
          | some (ms, r3) => some (.obj (pairsToDict ms), r3)
          | none => none
      | [] => none := rfl

theorem parseValue_num_head (fuel : Nat) (c : Char) (cs : List Char)
    (hws : jsonWs c = false) (h1 : c ≠ '"') (h2 : c ≠ braceOpen) (h3 : c ≠ '[')
    (h4 : c ≠ 't') (h5 : c ≠ 'f') (h6 : c ≠ 'n') (hc : c = '-' ∨ c.isDigit = true) :
    parseValue (fuel + 1) (c :: cs) =
      match parseIntToken (c :: cs) with
      | some (n, r) => some (.num n, r)
      | none => none := by
  simp only [parseValue]
  rw [skipWs_not_ws cs hws]
  dsimp only
  rw [if_neg h1, if_neg h2, if_neg h3, if_neg h4, if_neg h5, if_neg h6,
    if_pos (by simpa using hc)]

theorem parseValue_space (fuel : Nat) (cs : List Char) :
    parseValue fuel (' ' :: cs) = parseValue fuel cs := by
  cases fuel with
  | zero => rfl
  | succ fuel =>
    simp only [parseValue]
    rw [skipWs_space]

theorem parseElems_succ (fuel : Nat) (cs : List Char) :
    parseElems (fuel + 1) cs =
      match parseValue fuel cs with
      | none => none
      | some (v, r) =>
        match skipWs r with
        | ',' :: r2 =>
          match parseElems fuel (skipWs r2) with
          | some (vs, r3) => some (v :: vs, r3)
          | none => none
        | ']' :: r2 => some ([v], r2)
        | _ => none := rfl

theorem parseMembers_quote (fuel : Nat) (cs1 : List Char) :
    parseMembers (fuel + 1) ('"' :: cs1) =
      match parseStrChars (cs1.length + 1) cs1 with
      | none => none
      | some (kout, r1) =>
        match skipWs r1 with
        | ':' :: r2 =>
          match parseValue fuel r2 with
          | none => none
          | some (v, r3) =>
            match skipWs r3 with
            | ',' :: r4 =>
              match parseMembers fuel (skipWs r4) with
              | some (ms, r5) => some ((String.mk kout, v) :: ms, r5)
              | none => none
            | c :: r4 => if c = braceClose then some ([(String.mk kout, v)], r4) else none
            | [] => none
        | _ => none := rfl

theorem parseElems_cons_comma (fuel : Nat) (cs : List Char) (v : Value) (xs : List Char)
    (hpv : parseValue fuel cs = some (v, ',' :: ' ' :: xs)) :
    parseElems (fuel + 1) cs =
      match parseElems fuel (skipWs xs) with
      | some (vs, r3) => some (v :: vs, r3)
      | none => none := by
  rw [parseElems_succ, hpv]
  rfl

theorem parseElems_cons_close (fuel : Nat) (cs : List Char) (v : Value) (xs : List Char)
    (hpv : parseValue fuel cs = some (v, ']' :: xs)) :
    parseElems (fuel + 1) cs = some ([v], xs) := by
  rw [parseElems_succ, hpv]
  rfl

theorem parseMembers_one (fuel : Nat) (cs1 kout : List Char) (v : Value) (t xs : List Char)
    (hstr : parseStrChars (cs1.length + 1) cs1 = some (kout, ':' :: ' ' :: t))
    (hval : parseValue fuel (' ' :: t) = some (v, braceClose :: xs)) :
    parseMembers (fuel + 1) ('"' :: cs1) = some ([(String.mk kout, v)], xs) := by
  rw [parseMembers_quote, hstr]
  show (match parseValue fuel (' ' :: t) with
      | none => none
      | some (v, r3) =>
        match skipWs r3 with
        | ',' :: r4 =>
          match parseMembers fuel (skipWs r4) with
          | some (ms, r5) => some ((String.mk kout, v) :: ms, r5)
          | none => none
        | c :: r4 => if c = braceClose then some ([(String.mk kout, v)], r4) else none
        | [] => none) = some ([(String.mk kout, v)], xs)
  rw [hval]
  rfl

theorem parseMembers_more (fuel : Nat) (cs1 kout : List Char) (v : Value) (t xs : List Char)
    (hstr : parseStrChars (cs1.length + 1) cs1 = some (kout, ':' :: ' ' :: t))
    (hval : parseValue fuel (' ' :: t) = some (v, ',' :: ' ' :: xs)) :
    parseMembers (fuel + 1) ('"' :: cs1) =
      match parseMembers fuel (skipWs xs) with
      | some (ms, r5) => some ((String.mk kout, v) :: ms, r5)
      | none => none := by
  rw [parseMembers_quote, hstr]
  show (match parseValue fuel (' ' :: t) with
      | none => none
      | some (v, r3) =>
        match skipWs r3 with
        | ',' :: r4 =>
          match parseMembers fuel (skipWs r4) with
          | some (ms, r5) => some ((String.mk kout, v) :: ms, r5)
          | none => none
        | c :: r4 => if c = braceClose then some ([(String.mk kout, v)], r4) else none
        | [] => none) =
    match parseMembers fuel (skipWs xs) with
    | some (ms, r5) => some ((String.mk kout, v) :: ms, r5)
    | none => none
  rw [hval]
  rfl

theorem natDigits_head_digit (m : Nat) :
    ∃ c cs, natDigits m = c :: cs ∧ c.isDigit = true := by
  rcases Nat.eq_zero_or_pos m with h0 | hpos
  · rw [h0, natDigits_zero]
    exact ⟨'0', [], rfl, by decide⟩
  · rcases natDigitsAux_head_pos (m + 1) m (by omega) hpos with ⟨c, cs, heq, _, hd⟩
    exact ⟨c, cs, heq, hd⟩

theorem encodeStr_length_pos (s : String) : 1 ≤ (encodeStr s).length := by
  rw [encodeStr]
  simp

/-- The printer–scanner round trip, by induction on the scanner's fuel: a
serialized value followed by any legal continuation is scanned back to the
very value, and likewise for element and member lists. -/
theorem parse_dumps :
    ∀ fuel : Nat,
      (∀ (v : Value) (rest : List Char),
        (dumpsChars v).length ≤ fuel → stopsOk rest → nodupDeep v = true →
        parseValue fuel (dumpsChars v ++ rest) = some (v, rest)) ∧
      (∀ (vs : List Value) (rest : List Char), vs ≠ [] →
        (dumpsArr vs).length ≤ fuel → stopsOk rest → ndElems vs = true →
        parseElems fuel (dumpsArr vs ++ rest) = some (vs, rest)) ∧
      (∀ (kvs : List (String × Value)) (rest : List Char), kvs ≠ [] →
        (dumpsObj kvs).length ≤ fuel → stopsOk rest → ndMembers kvs = true →
        parseMembers fuel (dumpsObj kvs ++ rest) = some (kvs, rest)) := by
  intro fuel
  induction fuel with
  | zero =>
    refine ⟨?_, ?_, ?_⟩
    · intro v rest hlen _ _
      exact absurd hlen (by have := dumpsChars_length_pos v; omega)
    · intro vs rest _ hlen _ _
      exact absurd hlen (by have := dumpsArr_length_pos vs; omega)
    · intro kvs rest _ hlen _ _
      exact absurd hlen (by have := dumpsObj_length_pos kvs; omega)
  | succ fuel ih =>
    obtain ⟨ihV, ihE, ihM⟩ := ih
    refine ⟨?_, ?_, ?_⟩
    · intro v rest hlen hstop hnd
      cases v with
      | null => exact parseValue_null fuel rest
      | bool b =>
        cases b with
        | false => exact parseValue_false fuel rest
        | true => exact parseValue_true fuel rest
      | num n =>
        have hto := parseIntToken_intChars n rest hstop
        show parseValue (fuel + 1) (intChars n ++ rest) = some (.num n, rest)
        by_cases hneg : n < 0
        · rw [intChars, if_pos hneg, List.cons_append] at hto ⊢
          rw [parseValue_num_head fuel '-' _ (by decide) (by decide) (by decide)
            (by decide) (by decide) (by decide) (by decide) (Or.inl rfl), hto]
        · rcases natDigits_head_digit n.natAbs with ⟨c, cs, heq, hd⟩
          rw [intChars, if_neg hneg, heq, List.cons_append] at hto ⊢
          rw [parseValue_num_head fuel c _
            (jsonWs_eq_false (isDigit_ne_of ' ' hd (by decide))
              (isDigit_ne_of '\t' hd (by decide)) (isDigit_ne_of '\n' hd (by decide))
              (isDigit_ne_of '\r' hd (by decide)))
            (isDigit_ne_of '"' hd (by decide)) (isDigit_ne_of braceOpen hd (by decide))
            (isDigit_ne_of '[' hd (by decide)) (isDigit_ne_of 't' hd (by decide))
            (isDigit_ne_of 'f' hd (by decide)) (isDigit_ne_of 'n' hd (by decide))
            (Or.inr hd), hto]
      | str s =>
        rw [dumpsChars_str, List.cons_append, parseValue_quote, List.append_assoc,
          List.singleton_append]
        have hb : s.data.length <
            ((s.data.map escapeChar).flatten ++ '"' :: rest).length + 1 := by
          have h1 := encFlatten_length s.data
          rw [List.length_append]
          omega
        rw [parseStrChars_encode s.data _ rest hb]
      | arr vs =>
        cases vs with
        | nil =>
          show parseValue (fuel + 1) ('[' :: ']' :: rest) = some (.arr [], rest)
          rw [parseValue_bracket, skipWs_not_ws rest (show jsonWs ']' = false by decide)]
          dsimp only
          rw [if_pos rfl]
        | cons v vs2 =>
          rw [dumpsChars_arr, List.cons_append, parseValue_bracket]
          rcases dumpsArr_head (show v :: vs2 ≠ [] by simp) with ⟨c, cs, heqA, hws, hnr⟩
          rw [heqA, List.cons_append, skipWs_not_ws _ hws]
          dsimp only
          rw [if_neg hnr, ← List.cons_append, ← heqA]
          have hlenE : (dumpsArr (v :: vs2)).length ≤ fuel := by
            rw [dumpsChars_arr] at hlen
            simp at hlen
            omega
          rw [ihE (v :: vs2) rest (by simp) hlenE hstop
            (by rw [nodupDeep_arr] at hnd; exact hnd)]
      | obj kvs =>
        cases kvs with
        | nil =>
          show parseValue (fuel + 1) (braceOpen :: braceClose :: rest) = some (.obj [], rest)
          rw [parseValue_brace,
            skipWs_not_ws rest (show jsonWs braceClose = false by decide)]
          dsimp only
          rw [if_pos rfl]
        | cons m kvs2 =>
          rw [dumpsChars_obj, List.cons_append, parseValue_brace]
          rcases dumpsObj_head (show m :: kvs2 ≠ [] by simp) with ⟨cs, heqO⟩
          rw [heqO, List.cons_append,
            skipWs_not_ws _ (show jsonWs '"' = false by decide)]
          dsimp only
          rw [if_neg (show ¬('"' : Char) = braceClose by decide),
            ← List.cons_append, ← heqO]
          rw [nodupDeep_obj_eq, Bool.and_eq_true, Bool.not_eq_true'] at hnd
          have hlenM : (dumpsObj (m :: kvs2)).length ≤ fuel := by
            rw [dumpsChars_obj] at hlen
            simp at hlen
            omega
          rw [ihM (m :: kvs2) rest (by simp) hlenM hstop hnd.2]
          dsimp only
          rw [pairsToDict_eq_self (m :: kvs2) hnd.1]
    · intro vs rest hne hlen hstop hnd
      cases vs with
      | nil => exact absurd rfl hne
      | cons v vs2 =>
        rw [ndElems_cons, Bool.and_eq_true] at hnd
        cases vs2 with
        | nil =>
          rw [dumpsArr_single, List.append_assoc, List.singleton_append]
          have hlenV : (dumpsChars v).length ≤ fuel := by
            rw [dumpsArr_single] at hlen
            simp [List.length_append] at hlen
            omega
          exact parseElems_cons_close fuel _ v rest
            (ihV v (']' :: rest) hlenV (Or.inr (Or.inl rfl)) hnd.1)
        | cons v2 vs3 =>
          rw [dumpsArr_cons2, List.append_assoc, List.cons_append, List.cons_append]
          have hlen2 : (dumpsChars v).length ≤ fuel ∧
              (dumpsArr (v2 :: vs3)).length ≤ fuel := by
            rw [dumpsArr_cons2] at hlen
            simp [List.length_append] at hlen
            have h2 := dumpsArr_length_pos (v2 :: vs3)
            have h3 := dumpsChars_length_pos v
            omega
          have hv := ihV v (',' :: ' ' :: (dumpsArr (v2 :: vs3) ++ rest)) hlen2.1
            (Or.inl rfl) hnd.1
          rw [parseElems_cons_comma fuel _ v _ hv]
          rcases dumpsArr_head (show v2 :: vs3 ≠ [] by simp) with ⟨c, cs, heqA, hws, _⟩
          rw [heqA, List.cons_append, skipWs_not_ws _ hws, ← List.cons_append, ← heqA]
          rw [ihE (v2 :: vs3) rest (by simp) hlen2.2 hstop hnd.2]
    · intro kvs rest hne hlen hstop hnd
      cases kvs with
      | nil => exact absurd rfl hne
      | cons m kvs2 =>
        rcases m with ⟨k, v⟩
        rw [ndMembers_cons, Bool.and_eq_true] at hnd
        cases kvs2 with
        | nil =>
          have hA : dumpsObj [(k, v)] ++ rest =
              '"' :: ((k.data.map escapeChar).flatten ++ '"' ::
                ':' :: ' ' :: (dumpsChars v ++ braceClose :: rest)) := by
            rw [dumpsObj_single, encodeStr]
            simp [List.cons_append, List.append_assoc]
          rw [hA]
          have hb : k.data.length <
              ((k.data.map escapeChar).flatten ++ '"' ::
                ':' :: ' ' :: (dumpsChars v ++ braceClose :: rest)).length + 1 := by
            have h1 := encFlatten_length k.data
            rw [List.length_append]
            omega
          have hlenV : (dumpsChars v).length ≤ fuel := by
            rw [dumpsObj_single] at hlen
            simp [List.length_append, encodeStr] at hlen
            omega
          have hval : parseValue fuel (' ' :: (dumpsChars v ++ braceClose :: rest)) =
              some (v, braceClose :: rest) := by
            rw [parseValue_space]
            exact ihV v (braceClose :: rest) hlenV (Or.inr (Or.inr rfl)) hnd.1
          exact parseMembers_one fuel _ k.data v _ rest
            (parseStrChars_encode k.data _
              (':' :: ' ' :: (dumpsChars v ++ braceClose :: rest)) hb) hval
        | cons m2 kvs3 =>
          have hA : dumpsObj ((k, v) :: m2 :: kvs3) ++ rest =
              '"' :: ((k.data.map escapeChar).flatten ++ '"' ::
                ':' :: ' ' ::
                  (dumpsChars v ++ ',' :: ' ' :: (dumpsObj (m2 :: kvs3) ++ rest))) := by
            rw [dumpsObj_cons2, encodeStr]
            simp [List.cons_append, List.append_assoc]
          rw [hA]
          have hb : k.data.length <
              ((k.data.map escapeChar).flatten ++ '"' ::
                ':' :: ' ' ::
                  (dumpsChars v ++ ',' :: ' ' ::
                    (dumpsObj (m2 :: kvs3) ++ rest))).length + 1 := by
            have h1 := encFlatten_length k.data
            rw [List.length_append]
            omega
          have hlen2 : (dumpsChars v).length ≤ fuel ∧
              (dumpsObj (m2 :: kvs3)).length ≤ fuel := by
            rw [dumpsObj_cons2] at hlen
            simp [List.length_append, encodeStr] at hlen
            have h2 := dumpsObj_length_pos (m2 :: kvs3)
            have h3 := dumpsChars_length_pos v
            omega
          have hval : parseValue fuel
              (' ' :: (dumpsChars v ++ ',' :: ' ' :: (dumpsObj (m2 :: kvs3) ++ rest))) =
              some (v, ',' :: ' ' :: (dumpsObj (m2 :: kvs3) ++ rest)) := by
            rw [parseValue_space]
            exact ihV v _ hlen2.1 (Or.inl rfl) hnd.1
          rw [parseMembers_more fuel _ k.data v _ (dumpsObj (m2 :: kvs3) ++ rest)
            (parseStrChars_encode k.data _
              (':' :: ' ' ::
                (dumpsChars v ++ ',' :: ' ' :: (dumpsObj (m2 :: kvs3) ++ rest))) hb) hval]
          rcases dumpsObj_head (show m2 :: kvs3 ≠ [] by simp) with ⟨cs, heqO⟩
          rw [heqO, List.cons_append,
            skipWs_not_ws _ (show jsonWs '"' = false by decide),
            ← List.cons_append, ← heqO]
          rw [ihM (m2 :: kvs3) rest (by simp) hlen2.2 hstop hnd.2]

/-- Claim C8.  A mapping-valued field is normalized for storage by
serializing it to its JSON text (`flattenVal`, the model of line 341 of
`save_response`), and deserializing that persisted text with the model of
`json.loads` — as `load_response_by_id` does — yields a value equal to the
original mapping: the round trip is the identity.  The hypothesis records
that every object inside the value has pairwise-distinct keys, which is
automatic for values arising from Python dicts. -/
theorem mapping_field_roundtrip (kvs : List (String × Value))
    (h : nodupDeep (.obj kvs) = true) :
    flattenVal (.obj kvs) = .str (dumps (.obj kvs)) ∧
    loads (dumps (.obj kvs)) = some (.obj kvs) := by
  refine ⟨rfl, ?_⟩
  have hv := (parse_dumps ((dumpsChars (.obj kvs)).length + 1)).1 (.obj kvs) []
    (by omega) (by exact trivial) h
  rw [List.append_nil] at hv
  show (match parseValue ((dumpsChars (.obj kvs)).length + 1) (dumpsChars (.obj kvs)) with
    | some (v, rest) => if skipWs rest = [] then some v else none
    | none => none) = some (.obj kvs)
  rw [hv]
  rfl

/-- Concrete round trip of the spec's example mapping
`\x7b"hobbyist": 40, "regular": 60\x7d`. -/
theorem mapping_field_roundtrip_witness :
    flattenVal (.obj [("hobbyist", .num 40), ("regular", .num 60)]) =
      .str (dumps (.obj [("hobbyist", .num 40), ("regular", .num 60)])) ∧
    loads (dumps (.obj [("hobbyist", .num 40), ("regular", .num 60)])) =
      some (.obj [("hobbyist", .num 40), ("regular", .num 60)]) :=
  mapping_field_roundtrip [("hobbyist", .num 40), ("regular", .num 60)] rfl

end Survey
